import Mathlib

/-!
Verification of the PC-Guardian configuration change detection engine.

Shallow embedding of the Python source:
  - config_comparator.py : the diff engine (ConfigComparator)
  - kafka_consumer.py    : the ingestion pipeline (PCGuardianConsumer)
  - app.py               : update_offline_status and set_baseline
  - database.py          : the row types (PC, PCConfiguration, ChangeEvent)

Component records are JSON objects: insertion-ordered association lists from
attribute name to JSON scalar, mirroring Python dicts produced by json.loads.
-/

namespace PCGuardian

/-- JSON scalar values as stored in component records. Python None is `null`. -/
inductive JVal where
  | str (s : String)
  | num (n : Int)
  | jbool (b : Bool)
  | null
deriving DecidableEq, Repr

/-- Python truthiness of a JSON scalar: empty string, zero, False and None are falsy. -/
def JVal.truthy : JVal → Bool
  | .str s => decide (s ≠ "")
  | .num n => decide (n ≠ 0)
  | .jbool b => b
  | .null => false

/-- Python `a or b` on scalars: the first operand when truthy, else the second. -/
def pyOr (a b : JVal) : JVal := if a.truthy then a else b

/-- Python str() of a scalar, as used inside f-strings. -/
def pyStr : JVal → String
  | .str s => s
  | .num n => toString n
  | .jbool b => if b then "True" else "False"
  | .null => "None"

/-- A component record: a Python dict from attribute name to scalar,
kept as an insertion-ordered association list. -/
abbrev Rec := List (String × JVal)

/-- Association-list lookup on a record (first entry with the key). -/
def lookupR (r : Rec) (k : String) : Option JVal :=
  (r.find? (fun p => decide (p.1 = k))).map Prod.snd

/-- Python `d.get(k)`: None (null) when the key is absent. -/
def Rec.getJ (r : Rec) (k : String) : JVal := (lookupR r k).getD JVal.null

/-- Python `d.get(k, default)` rendered through str(), used for event details:
the default is returned only when the key is absent. -/
def getDetail (m : Rec) (k : String) : String :=
  match lookupR m k with
  | some v => pyStr v
  | none => "неизвестно"

/-- Source _components_equal.normalize: drop every attribute whose value is None. -/
def normalize (r : Rec) : Rec := r.filter (fun p => decide (p.2 ≠ JVal.null))

/-- Python dict equality on records with unique keys: same key set, same values,
order irrelevant, no coercion. -/
def recEqb (a b : Rec) : Bool :=
  a.all (fun p => decide (lookupR b p.1 = some p.2)) &&
  b.all (fun p => decide (lookupR a p.1 = some p.2))

/-- Source ConfigComparator._components_equal: equality of normalized records. -/
def componentsEqual (c1 c2 : Rec) : Bool := recEqb (normalize c1) (normalize c2)

/-- A Python dict keyed by scalars (the matching dictionaries of the comparator). -/
abbrev PyDict := List (JVal × Rec)

/-- The keys of a matching dictionary, in insertion order. -/
def keysOf (d : PyDict) : List JVal := d.map Prod.fst

/-- Python `k in d`. -/
def containsKey (d : PyDict) (k : JVal) : Bool := decide (k ∈ keysOf d)

/-- Python `d[k]` as an Option. -/
def lookupD (d : PyDict) (k : JVal) : Option Rec :=
  (d.find? (fun p => decide (p.1 = k))).map Prod.snd

/-- Python `d[k] = v`: replace in place when the key exists, else append. -/
def pyInsert (d : PyDict) (k : JVal) (v : Rec) : PyDict :=
  if containsKey d k then d.map (fun p => if p.1 = k then (k, v) else p)
  else d ++ [(k, v)]

/-- Key of a RAM module, from _compare_ram_modules:
serial number or slot or positional fallback slot_n with n the dict size so far. -/
def ramKey (m : Rec) (n : Nat) : JVal :=
  pyOr (m.getJ "serial_number") (pyOr (m.getJ "slot") (JVal.str ("slot_" ++ toString n)))

/-- Key of a storage device, from _compare_storage_devices. -/
def storageKey (m : Rec) (n : Nat) : JVal :=
  pyOr (m.getJ "serial_number") (JVal.str ("device_" ++ toString n))

/-- Key of a network adapter, from _compare_network_adapters: the raw mac_address
value, null when the attribute is absent (no fallback). -/
def netKey (m : Rec) (_ : Nat) : JVal := m.getJ "mac_address"

/-- Build the matching dictionary of a snapshot list, exactly as the source loops:
the positional index used by fallback keys is the dict size at insertion time. -/
def buildDict (keyOf : Rec → Nat → JVal) (ms : List Rec) : PyDict :=
  ms.foldl (fun d m => pyInsert d (keyOf m d.length) m) []

/-- The comparator ChangeEvent (common.models.ChangeEvent as constructed by
config_comparator.py; the timestamp default is irrelevant to the claims). -/
structure ChangeEvent where
  pc_id : String
  component_type : String
  event_type : String
  old_value : Option Rec
  new_value : Option Rec
  details : String
deriving DecidableEq, Repr

/-- A stored configuration row (database.PCConfiguration). Component columns are
None or the stored JSON value; id is the primary key. -/
structure DBConfig where
  id : Nat
  pc_id : String
  is_baseline : Bool
  timestamp : Int
  motherboard : Option Rec
  cpu : Option Rec
  ram_modules : Option (List Rec)
  storage_devices : Option (List Rec)
  gpu : Option Rec
  network_adapters : Option (List Rec)
  psu : Option Rec
deriving DecidableEq, Repr

/-- Source get_component restricted to the four single-instance columns
(dispatch on the component name used by _compare_component). -/
def getComponentSingle (c : DBConfig) (name : String) : Option Rec :=
  if name = "motherboard" then c.motherboard
  else if name = "cpu" then c.cpu
  else if name = "gpu" then c.gpu
  else if name = "psu" then c.psu
  else none

/-- Python truthiness of a get_component result: None and the empty dict are falsy. -/
def truthyRec : Option Rec → Bool
  | none => false
  | some r => decide (r ≠ [])

/-- Source ConfigComparator._compare_component. -/
def compareComponent (component_name : String) (baseline current : DBConfig) :
    List ChangeEvent :=
  let baseline_data := getComponentSingle baseline component_name
  let current_data := getComponentSingle current component_name
  if truthyRec baseline_data && !truthyRec current_data then
    [{ pc_id := baseline.pc_id, component_type := component_name,
       event_type := "removed", old_value := baseline_data, new_value := none,
       details := "Компонент " ++ component_name ++ " удален" }]
  else if !truthyRec baseline_data && truthyRec current_data then
    [{ pc_id := baseline.pc_id, component_type := component_name,
       event_type := "added", old_value := none, new_value := current_data,
       details := "Компонент " ++ component_name ++ " добавлен" }]
  else if truthyRec baseline_data && truthyRec current_data then
    if !componentsEqual (baseline_data.getD []) (current_data.getD []) then
      [{ pc_id := baseline.pc_id, component_type := component_name,
         event_type := "replaced", old_value := baseline_data,
         new_value := current_data,
         details := "Компонент " ++ component_name ++ " заменен" }]
    else []
  else []

/-- One removed RAM event, fields as in the source. -/
def ramRemovedEvent (pcId : String) (m : Rec) : ChangeEvent :=
  { pc_id := pcId, component_type := "ram", event_type := "removed",
    old_value := some m, new_value := none,
    details := "Модуль RAM удален: " ++ getDetail m "model" ++ " в слоте " ++
      getDetail m "slot" }

/-- One added RAM event, fields as in the source. -/
def ramAddedEvent (pcId : String) (m : Rec) : ChangeEvent :=
  { pc_id := pcId, component_type := "ram", event_type := "added",
    old_value := none, new_value := some m,
    details := "Модуль RAM добавлен: " ++ getDetail m "model" ++ " в слоте " ++
      getDetail m "slot" }

/-- One replaced RAM event, fields as in the source. -/
def ramReplacedEvent (pcId : String) (oldm newm : Rec) : ChangeEvent :=
  { pc_id := pcId, component_type := "ram", event_type := "replaced",
    old_value := some oldm, new_value := some newm,
    details := "Модуль RAM заменен в слоте " ++ getDetail oldm "slot" }

/-- Source ConfigComparator._compare_ram_modules. The three loops over the
matching dictionaries are rendered as filterMap over the dict entries; the
replaced loop iterates the key intersection in baseline insertion order
(CPython set-intersection order is unspecified; event multiset is unaffected). -/
def compareRamModules (baseline current : DBConfig) : List ChangeEvent :=
  let baseline_modules := baseline.ram_modules.getD []
  let current_modules := current.ram_modules.getD []
  let baseline_dict := buildDict ramKey baseline_modules
  let current_dict := buildDict ramKey current_modules
  let removed := baseline_dict.filterMap (fun p =>
    if containsKey current_dict p.1 then none
    else some (ramRemovedEvent baseline.pc_id p.2))
  let added := current_dict.filterMap (fun p =>
    if containsKey baseline_dict p.1 then none
    else some (ramAddedEvent baseline.pc_id p.2))
  let replaced := baseline_dict.filterMap (fun p =>
    if containsKey current_dict p.1 &&
        !componentsEqual p.2 ((lookupD current_dict p.1).getD []) then
      some (ramReplacedEvent baseline.pc_id p.2 ((lookupD current_dict p.1).getD []))
    else none)
  removed ++ added ++ replaced

/-- One removed storage event, fields as in the source. -/
def storageRemovedEvent (pcId : String) (m : Rec) : ChangeEvent :=
  { pc_id := pcId, component_type := "storage", event_type := "removed",
    old_value := some m, new_value := none,
    details := "Накопитель удален: " ++ getDetail m "model" }

/-- One added storage event, fields as in the source. -/
def storageAddedEvent (pcId : String) (m : Rec) : ChangeEvent :=
  { pc_id := pcId, component_type := "storage", event_type := "added",
    old_value := none, new_value := some m,
    details := "Накопитель добавлен: " ++ getDetail m "model" }

/-- One replaced storage event, fields as in the source. -/
def storageReplacedEvent (pcId : String) (oldm newm : Rec) : ChangeEvent :=
  { pc_id := pcId, component_type := "storage", event_type := "replaced",
    old_value := some oldm, new_value := some newm,
    details := "Накопитель заменен: " ++ getDetail oldm "model" }

/-- Source ConfigComparator._compare_storage_devices. -/
def compareStorageDevices (baseline current : DBConfig) : List ChangeEvent :=
  let baseline_devices := baseline.storage_devices.getD []
  let current_devices := current.storage_devices.getD []
  let baseline_dict := buildDict storageKey baseline_devices
  let current_dict := buildDict storageKey current_devices
  let removed := baseline_dict.filterMap (fun p =>
    if containsKey current_dict p.1 then none
    else some (storageRemovedEvent baseline.pc_id p.2))
  let added := current_dict.filterMap (fun p =>
    if containsKey baseline_dict p.1 then none
    else some (storageAddedEvent baseline.pc_id p.2))
  let replaced := baseline_dict.filterMap (fun p =>
    if containsKey current_dict p.1 &&
        !componentsEqual p.2 ((lookupD current_dict p.1).getD []) then
      some (storageReplacedEvent baseline.pc_id p.2 ((lookupD current_dict p.1).getD []))
    else none)
  removed ++ added ++ replaced

/-- One removed network event, fields as in the source (the key appears in the
details through str()). -/
def netRemovedEvent (pcId : String) (mac : JVal) (m : Rec) : ChangeEvent :=
  { pc_id := pcId, component_type := "network", event_type := "removed",
    old_value := some m, new_value := none,
    details := "Сетевой адаптер удален: " ++ getDetail m "name" ++ " (" ++
      pyStr mac ++ ")" }

/-- One added network event, fields as in the source. -/
def netAddedEvent (pcId : String) (mac : JVal) (m : Rec) : ChangeEvent :=
  { pc_id := pcId, component_type := "network", event_type := "added",
    old_value := none, new_value := some m,
    details := "Сетевой адаптер добавлен: " ++ getDetail m "name" ++ " (" ++
      pyStr mac ++ ")" }

/-- Source ConfigComparator._compare_network_adapters: keyed by the raw
mac_address value, no replaced loop. -/
def compareNetworkAdapters (baseline current : DBConfig) : List ChangeEvent :=
  let baseline_adapters := baseline.network_adapters.getD []
  let current_adapters := current.network_adapters.getD []
  let baseline_dict := buildDict netKey baseline_adapters
  let current_dict := buildDict netKey current_adapters
  let removed := baseline_dict.filterMap (fun p =>
    if containsKey current_dict p.1 then none
    else some (netRemovedEvent baseline.pc_id p.1 p.2))
  let added := current_dict.filterMap (fun p =>
    if containsKey baseline_dict p.1 then none
    else some (netAddedEvent baseline.pc_id p.1 p.2))
  removed ++ added

/-- Source ConfigComparator.compare_configurations: fixed component order. -/
def compareConfigurations (baseline current : DBConfig) : List ChangeEvent :=
  compareComponent "motherboard" baseline current ++
  compareComponent "cpu" baseline current ++
  compareRamModules baseline current ++
  compareStorageDevices baseline current ++
  compareComponent "gpu" baseline current ++
  compareNetworkAdapters baseline current ++
  compareComponent "psu" baseline current

/-! ## The database state and the ingestion pipeline -/

/-- A machine row (database.PC). Timestamps are integers (minutes scale, an
order-preserving rendering of datetime); room and registered_at are omitted as
irrelevant to the claims. -/
structure PCRow where
  pc_id : String
  hostname : String
  last_seen : Option Int
  status : String
deriving DecidableEq, Repr

/-- A persisted change event row (database.ChangeEvent); the video columns and
timestamps are omitted as irrelevant to the claims. notified defaults to False. -/
structure EventRow where
  pc_id : String
  component_type : String
  event_type : String
  details : String
  old_value : Option Rec
  new_value : Option Rec
  notified : Bool
deriving DecidableEq, Repr

/-- The relational store. -/
structure DB where
  pcs : List PCRow
  configs : List DBConfig
  events : List EventRow
deriving DecidableEq, Repr

/-- database.ChangeEvent.set_old_value / set_new_value: store None for falsy
values (None or the empty dict). -/
def storeVal : Option Rec → Option Rec
  | none => none
  | some r => if r = [] then none else some r

/-- The ChangeEvent row built by _process_configuration for one diff event. -/
def toEventRow (pcId : String) (e : ChangeEvent) : EventRow :=
  { pc_id := pcId, component_type := e.component_type, event_type := e.event_type,
    details := e.details, old_value := storeVal e.old_value,
    new_value := storeVal e.new_value, notified := false }

/-- Modelled from the spec: common/models.py (the PCConfiguration payload class
parsed by from_dict) is not under src/. Per the payload schema of the spec,
every component field may be omitted; an omitted field is none. -/
structure Snapshot where
  pc_id : String
  hostname : String
  timestamp : Int
  motherboard : Option Rec
  cpu : Option Rec
  ram_modules : Option (List Rec)
  storage_devices : Option (List Rec)
  gpu : Option Rec
  network_adapters : Option (List Rec)
  psu : Option Rec
deriving DecidableEq, Repr

/-- set_component for a single record: json.dumps(data) if data else None,
so a falsy (empty) dict is stored as None. -/
def setCompSingle : Option Rec → Option Rec
  | none => none
  | some r => if r = [] then none else some r

/-- set_component for a list column, guarded by the truthiness check of
_create_db_configuration: an absent or empty list is not stored. -/
def setCompList : Option (List Rec) → Option (List Rec)
  | none => none
  | some l => if l = [] then none else some l

/-- Source PCGuardianConsumer._create_db_configuration. The id is the primary
key assigned by the store on insert (implicit in the source). -/
def createDbConfiguration (freshId : Nat) (pcId : String) (config : Snapshot)
    (isBaseline : Bool) : DBConfig :=
  { id := freshId, pc_id := pcId, is_baseline := isBaseline,
    timestamp := config.timestamp,
    motherboard := setCompSingle config.motherboard,
    cpu := setCompSingle config.cpu,
    ram_modules := setCompList config.ram_modules,
    storage_devices := setCompList config.storage_devices,
    gpu := setCompSingle config.gpu,
    network_adapters := setCompList config.network_adapters,
    psu := setCompSingle config.psu }

/-- A fresh primary key for a configuration row. -/
def freshConfigId (db : DB) : Nat :=
  db.configs.foldl (fun a c => Nat.max a (c.id + 1)) 0

/-- UPDATE of a machine row: every row with that pc_id takes the new value
(pc_id is unique, so at most one row is affected in a well-formed store). -/
def replacePC (pcs : List PCRow) (pc : PCRow) : List PCRow :=
  pcs.map (fun p => if p.pc_id = pc.pc_id then pc else p)

/-- The observable actions of one _process_configuration call, in program
order: persisting one event row, one send_alert call, the final commit. -/
inductive Action where
  | addEvent (e : EventRow)
  | sendAlert (pcId : String) (e : ChangeEvent)
  | commit
deriving DecidableEq, Repr

/-- Source PCGuardianConsumer._process_configuration, success path: the state
after db.commit() together with the ordered action trace of the call. The
per-event loop persists the row and then immediately calls send_alert, and the
commit comes after the whole loop. -/
def processConfigurationRun (db : DB) (config : Snapshot) : DB × List Action :=
  match db.pcs.find? (fun p => decide (p.pc_id = config.pc_id)) with
  | none =>
    let pc : PCRow := { pc_id := config.pc_id, hostname := config.hostname,
                        last_seen := none, status := "normal" }
    let baseline := createDbConfiguration (freshConfigId db) config.pc_id config true
    ({ db with pcs := db.pcs ++ [pc], configs := db.configs ++ [baseline] },
     [Action.commit])
  | some pc0 =>
    let pc1 : PCRow := { pc0 with last_seen := some config.timestamp }
    match db.configs.find? (fun c => decide (c.pc_id = pc0.pc_id) && c.is_baseline) with
    | some baseline =>
      let current := createDbConfiguration (freshConfigId db) pc0.pc_id config false
      let events := compareConfigurations baseline current
      if events = [] then
        let pc2 : PCRow := { pc1 with status := "normal" }
        ({ db with pcs := replacePC db.pcs pc2, configs := db.configs ++ [current] },
         [Action.commit])
      else
        let pc2 : PCRow := { pc1 with status := "changed" }
        ({ db with
            pcs := replacePC db.pcs pc2
            configs := db.configs ++ [current]
            events := db.events ++ events.map (toEventRow pc0.pc_id) },
         events.foldr
           (fun e acc => Action.addEvent (toEventRow pc0.pc_id e) ::
             Action.sendAlert pc0.pc_id e :: acc)
           [Action.commit])
    | none =>
      let pc2 : PCRow := { pc1 with status := "normal" }
      let baseline := createDbConfiguration (freshConfigId db) pc0.pc_id config true
      ({ db with pcs := replacePC db.pcs pc2, configs := db.configs ++ [baseline] },
       [Action.commit])

/-- The committed state of one _process_configuration call. -/
def processResult (db : DB) (config : Snapshot) : DB :=
  (processConfigurationRun db config).1

/-- The action trace of one _process_configuration call. -/
def processTrace (db : DB) (config : Snapshot) : List Action :=
  (processConfigurationRun db config).2

/-- The try/commit/except/rollback wrapper of _process_configuration: ok=true
is the exception-free run ending in db.commit(); ok=false is a run where some
step raised, so db.rollback() discards every pending write of the session and
the store is left unchanged. -/
def processOutcome (db : DB) (config : Snapshot) (ok : Bool) : DB :=
  if ok then processResult db config else db

/-- The consumer loop body of _run over one polled batch: each message is
processed under its own try/except, so the loop always advances. -/
def runMessages (db : DB) (msgs : List (Snapshot × Bool)) : DB :=
  msgs.foldl (fun d m => processOutcome d m.1 m.2) db

/-! ## app.py: offline recomputation and baseline promotion -/

/-- The per-row effect of update_offline_status: a machine with a known
last_seen older than the threshold and a status other than offline goes
offline; every other row is untouched. -/
def offlineRow (now threshold : Int) (pc : PCRow) : PCRow :=
  match pc.last_seen with
  | some t =>
    if t < now - threshold ∧ pc.status ≠ "offline" then { pc with status := "offline" }
    else pc
  | none => pc

/-- Source app.update_offline_status: threshold = utcnow − offline_threshold
minutes; the filtered rows are set to offline and committed. -/
def updateOfflineStatus (db : DB) (now threshold : Int) : DB :=
  { db with pcs := db.pcs.map (offlineRow now threshold) }

/-- order_by(timestamp.desc()).first(): an element of maximal timestamp
(the first such in store order, ties being unspecified in the source). -/
def latestAmong : List DBConfig → Option DBConfig
  | [] => none
  | h :: t => some (t.foldl (fun best c => if best.timestamp < c.timestamp then c else best) h)

/-- Source app.set_baseline (the admin endpoint, after its auth check):
404 when the machine or a non-baseline configuration is missing; otherwise
demote every baseline of the machine, promote the latest non-baseline row,
set the machine status to normal, and commit. -/
def setBaseline (db : DB) (pcId : String) : Except String DB :=
  match db.pcs.find? (fun p => decide (p.pc_id = pcId)) with
  | none => Except.error "PC not found"
  | some pc =>
    let nonBase := db.configs.filter (fun c => decide (c.pc_id = pcId) && !c.is_baseline)
    match latestAmong nonBase with
    | none => Except.error "No configuration found"
    | some latest =>
      let configs := db.configs.map (fun c =>
        if c.pc_id = pcId ∧ c.is_baseline then { c with is_baseline := false }
        else if c.id = latest.id then { c with is_baseline := true }
        else c)
      Except.ok { db with
                   pcs := replacePC db.pcs { pc with status := "normal" }
                   configs := configs }

/-! ## Auxiliary definitions for the statements -/

/-- Generic association-list lookup; lookupR and lookupD are its instances. -/
def assocLookup {κ β : Type} [DecidableEq κ] (l : List (κ × β)) (k : κ) : Option β :=
  (l.find? (fun p => decide (p.1 = k))).map Prod.snd

/-- A record has no duplicate attribute names (always true of a parsed JSON
object, which is what every stored component is). -/
def recNodup (r : Rec) : Prop := (r.map Prod.fst).Nodup

/-- Well-formedness of a single-component column as produced by set_component:
None, or a non-empty record with distinct attribute names. -/
def slotWFB : Option Rec → Bool
  | none => true
  | some r => decide ((r.map Prod.fst).Nodup) && decide (r ≠ [])

/-- Well-formedness of a list column: every record has distinct attribute names. -/
def listWFB : Option (List Rec) → Bool
  | none => true
  | some l => l.all (fun r => decide ((r.map Prod.fst).Nodup))

/-- Well-formedness of a stored configuration row. -/
def configWFB (c : DBConfig) : Bool :=
  slotWFB c.motherboard && slotWFB c.cpu && slotWFB c.gpu && slotWFB c.psu &&
  listWFB c.ram_modules && listWFB c.storage_devices && listWFB c.network_adapters

/-- Stated from the spec wording: two single-component slots are pairwise equal
after normalization when both are absent, or both present with equal normalized
mappings. -/
def specNormEqSlot : Option Rec → Option Rec → Bool
  | none, none => true
  | some r1, some r2 => recEqb (normalize r1) (normalize r2)
  | _, _ => false

/-- Stated from the spec wording: two list slots are pairwise equal after
normalization when the reported lists have the same length and the records are
pointwise equal after normalization (an absent list counts as empty). -/
def specNormEqList (o1 o2 : Option (List Rec)) : Bool :=
  decide ((o1.getD []).length = (o2.getD []).length) &&
  ((o1.getD []).zip (o2.getD [])).all (fun p => componentsEqual p.1 p.2)

/-- Stated from the spec wording: every component slot of the two snapshots is
pairwise equal after normalization. -/
def specNormEqConfig (b c : DBConfig) : Bool :=
  specNormEqSlot b.motherboard c.motherboard && specNormEqSlot b.cpu c.cpu &&
  specNormEqSlot b.gpu c.gpu && specNormEqSlot b.psu c.psu &&
  specNormEqList b.ram_modules c.ram_modules &&
  specNormEqList b.storage_devices c.storage_devices &&
  specNormEqList b.network_adapters c.network_adapters

/-- Two records related by normalized equality, both well-formed. -/
def PairRel (m1 m2 : Rec) : Prop :=
  componentsEqual m1 m2 = true ∧ recNodup m1 ∧ recNodup m2

/-- Two matching dictionaries with the same keys in the same order and
pairwise normalized-equal well-formed values. -/
def DictRel (d1 d2 : PyDict) : Prop :=
  List.Forall₂ (fun p q => p.1 = q.1 ∧ PairRel p.2 q.2) d1 d2

/-- A key function that respects normalized equality of records. -/
def KeyCongr (keyOf : Rec → Nat → JVal) : Prop :=
  ∀ m1 m2 n, PairRel m1 m2 → keyOf m1 n = keyOf m2 n

/-- Recognizer for send_alert invocations in a trace. -/
def isSendAlert : Action → Bool
  | .sendAlert _ _ => true
  | _ => false

/-- An adapter record lacking a MAC address: the raw get is None. -/
def isMacless (m : Rec) : Bool := decide (m.getJ "mac_address" = JVal.null)

/-- A snapshot list containing at least one MAC-less adapter. -/
def hasMacless (l : List Rec) : Bool := l.any isMacless

/-- An event whose old_value is a MAC-less adapter record. -/
def maclessOld (e : ChangeEvent) : Bool :=
  match e.old_value with
  | some m => isMacless m
  | none => false

/-- An event whose new_value is a MAC-less adapter record. -/
def maclessNew (e : ChangeEvent) : Bool :=
  match e.new_value with
  | some m => isMacless m
  | none => false

/-- Success recognizer for the promote-to-baseline endpoint result. -/
def exceptIsOk : Except String DB → Bool
  | Except.ok _ => true
  | Except.error _ => false

/-- A configuration row with every component column empty. -/
def emptyConfigRow (i : Nat) (pcId : String) (isB : Bool) (ts : Int) : DBConfig :=
  { id := i, pc_id := pcId, is_baseline := isB, timestamp := ts,
    motherboard := none, cpu := none, ram_modules := none, storage_devices := none,
    gpu := none, network_adapters := none, psu := none }

/-- A payload with every component field omitted. -/
def emptySnapshot (pcId host : String) (ts : Int) : Snapshot :=
  { pc_id := pcId, hostname := host, timestamp := ts,
    motherboard := none, cpu := none, ram_modules := none, storage_devices := none,
    gpu := none, network_adapters := none, psu := none }

/-- Store for the C1 scenario: one registered machine with a cpu-only baseline. -/
def exC1Db : DB :=
  { pcs := [{ pc_id := "pc1", hostname := "h", last_seen := some 0, status := "normal" }],
    configs := [{ emptyConfigRow 0 "pc1" true 0 with cpu := some [("model", JVal.str "i5")] }],
    events := [] }

/-- Payload for the C1 scenario: a snapshot whose cpu differs from the baseline. -/
def exC1Cfg : Snapshot :=
  { emptySnapshot "pc1" "h" 5 with cpu := some [("model", JVal.str "i7")] }

/-- Baseline for the C3 counterexample: one network adapter without a MAC. -/
def exC3Baseline : DBConfig :=
  { emptyConfigRow 0 "pc1" true 0 with
     network_adapters := some [[("name", JVal.str "eth0")]] }

/-- Current snapshot for the C3 counterexample: no network adapters reported. -/
def exC3Current : DBConfig := emptyConfigRow 1 "pc1" false 1

/-- Store for the C4 counterexample: a normal machine whose baseline has a cpu. -/
def exC4Db : DB :=
  { pcs := [{ pc_id := "pc1", hostname := "h", last_seen := some 0, status := "normal" }],
    configs := [{ emptyConfigRow 0 "pc1" true 0 with cpu := some [("model", JVal.str "i5")] }],
    events := [] }

/-- Payload for the C4 counterexample: machine_id present, all components omitted. -/
def exC4Cfg : Snapshot := emptySnapshot "pc1" "h" 5

/-- Store for the C4 witness: a normal machine whose baseline is empty. -/
def exC4DbW : DB :=
  { pcs := [{ pc_id := "pc2", hostname := "h2", last_seen := some 0, status := "normal" }],
    configs := [emptyConfigRow 0 "pc2" true 0],
    events := [] }

/-- Snapshots for the C6 witness: slots equal after normalization but not
syntactically (a null-valued attribute dropped by normalization). -/
def exC6B : DBConfig :=
  { emptyConfigRow 0 "pc1" true 0 with
     cpu := some [("model", JVal.str "i5"), ("note", JVal.null)]
     ram_modules := some [[("serial_number", JVal.str "R1"), ("slot", JVal.num 1)]] }

/-- Second snapshot for the C6 witness. -/
def exC6C : DBConfig :=
  { emptyConfigRow 1 "pc1" false 1 with
     cpu := some [("model", JVal.str "i5")]
     ram_modules := some [[("slot", JVal.num 1), ("serial_number", JVal.str "R1")]] }

/-- Snapshot for the C6 self-diff witness. -/
def exC6S : DBConfig :=
  { emptyConfigRow 2 "pc1" true 2 with
     gpu := some [("model", JVal.str "rtx")]
     storage_devices := some [[("serial_number", JVal.str "D1")], []] }

/-- Store for the C7 witness. -/
def exC7Db : DB :=
  { pcs := [{ pc_id := "old", hostname := "o", last_seen := some 0, status := "normal" }],
    configs := [emptyConfigRow 0 "old" true 0], events := [] }

/-- Payload for the C7 witness: a never-seen machine_id. -/
def exC7Cfg : Snapshot := emptySnapshot "new" "n" 7

/-- Store for the C8 witness: a machine with two stale baselines and two
non-baseline snapshots. -/
def exC8Db : DB :=
  { pcs := [{ pc_id := "pc1", hostname := "h", last_seen := some 0, status := "changed" }],
    configs := [emptyConfigRow 0 "pc1" true 0, emptyConfigRow 1 "pc1" true 1,
                emptyConfigRow 2 "pc1" false 2, emptyConfigRow 3 "pc1" false 3],
    events := [] }

/-- Store for the C9 witness. -/
def exC9Db : DB :=
  { pcs := [{ pc_id := "pc1", hostname := "h", last_seen := some 0, status := "normal" }],
    configs := [{ emptyConfigRow 0 "pc1" true 0 with gpu := some [("model", JVal.str "gtx")] }],
    events := [] }

/-- Payload for the C9 witness. -/
def exC9Cfg : Snapshot := emptySnapshot "pc1" "h" 9

/-- Store for the C10 witness: empty, so the first snapshot registers. -/
def exC10Db : DB := { pcs := [], configs := [], events := [] }

/-- Payload for the C10 witness. -/
def exC10Cfg : Snapshot := emptySnapshot "pc9" "h9" 3

/-! ## Lemmas: association-list lookup -/

theorem lookupR_eq_assoc (r : Rec) (k : String) : lookupR r k = assocLookup r k := rfl

theorem lookupD_eq_assoc (d : PyDict) (k : JVal) : lookupD d k = assocLookup d k := rfl

theorem assocLookup_eq_some_mem {κ β : Type} [DecidableEq κ] {l : List (κ × β)}
    {k : κ} {v : β} (h : assocLookup l k = some v) : (k, v) ∈ l := by
  unfold assocLookup at h
  cases hf : l.find? (fun p => decide (p.1 = k)) with
  | none => rw [hf] at h; simp at h
  | some p =>
    rw [hf] at h
    simp only [Option.map_some', Option.some.injEq] at h
    have hp : p.1 = k := by simpa using List.find?_some hf
    have hm := List.mem_of_find?_eq_some hf
    have hpe : p = (k, v) := Prod.ext hp h
    rw [hpe] at hm
    exact hm

theorem assocLookup_eq_none_iff {κ β : Type} [DecidableEq κ] {l : List (κ × β)}
    {k : κ} : assocLookup l k = none ↔ ∀ p ∈ l, p.1 ≠ k := by
  unfold assocLookup
  constructor
  · intro h p hp hk
    cases hf : l.find? (fun q => decide (q.1 = k)) with
    | none =>
      rw [List.find?_eq_none] at hf
      exact hf p hp (by simpa using hk)
    | some q => rw [hf] at h; simp at h
  · intro h
    have hf : l.find? (fun q => decide (q.1 = k)) = none := by
      rw [List.find?_eq_none]
      intro p hp
      simpa using h p hp
    rw [hf]
    rfl

theorem assocLookup_of_nodup_mem {κ β : Type} [DecidableEq κ] :
    ∀ {l : List (κ × β)} {k : κ} {v : β}, (l.map Prod.fst).Nodup → (k, v) ∈ l →
      assocLookup l k = some v := by
  intro l
  induction l with
  | nil => intro k v _ hm; simp at hm
  | cons p t ih =>
    intro k v hn hm
    rw [List.map_cons, List.nodup_cons] at hn
    by_cases hk : p.1 = k
    · have hfind : (p :: t).find? (fun q => decide (q.1 = k)) = some p :=
        List.find?_cons_of_pos _ (by simpa using hk)
      unfold assocLookup
      rw [hfind]
      simp only [Option.map_some']
      rcases List.mem_cons.mp hm with he | ht
      · rw [← he]
      · exfalso
        apply hn.1
        rw [hk]
        exact List.mem_map.mpr ⟨(k, v), ht, rfl⟩
    · have hfind : (p :: t).find? (fun q => decide (q.1 = k)) =
          t.find? (fun q => decide (q.1 = k)) :=
        List.find?_cons_of_neg _ (by simpa using hk)
      rcases List.mem_cons.mp hm with he | ht
      · exfalso; apply hk; rw [← he]
      · unfold assocLookup
        rw [hfind]
        exact ih hn.2 ht

/-! ## Lemmas: normalized record equality -/

theorem lookupR_congr {a b : Rec} (h : recEqb a b = true) (k : String) :
    lookupR a k = lookupR b k := by
  unfold recEqb at h
  simp only [Bool.and_eq_true, List.all_eq_true] at h
  obtain ⟨h1, h2⟩ := h
  cases ha : lookupR a k with
  | some v =>
    have hm : (k, v) ∈ a := assocLookup_eq_some_mem ha
    have hb := h1 (k, v) hm
    simp only [decide_eq_true_eq] at hb
    rw [hb]
  | none =>
    cases hb : lookupR b k with
    | none => rfl
    | some w =>
      have hm : (k, w) ∈ b := assocLookup_eq_some_mem hb
      have hab := h2 (k, w) hm
      simp only [decide_eq_true_eq] at hab
      rw [ha] at hab
      exact absurd hab (by simp)

theorem recEqb_refl {a : Rec} (h : recNodup a) : recEqb a a = true := by
  unfold recEqb
  simp only [Bool.and_eq_true, List.all_eq_true]
  constructor <;>
  · intro p hp
    simp only [decide_eq_true_eq]
    exact assocLookup_of_nodup_mem h (by simpa using hp)

theorem normalize_nodup {r : Rec} (h : recNodup r) : recNodup (normalize r) := by
  unfold recNodup at h ⊢
  exact List.Nodup.sublist ((List.filter_sublist r).map Prod.fst) h

theorem mem_normalize {r : Rec} {p : String × JVal} :
    p ∈ normalize r ↔ p ∈ r ∧ p.2 ≠ JVal.null := by
  unfold normalize
  rw [List.mem_filter]
  simp

theorem lookupR_normalize {r : Rec} (h : recNodup r) (k : String) :
    lookupR (normalize r) k =
      if lookupR r k = some JVal.null then none else lookupR r k := by
  cases ha : lookupR r k with
  | none =>
    rw [if_neg (by simp)]
    rw [lookupR_eq_assoc, assocLookup_eq_none_iff]
    intro p hp
    exact assocLookup_eq_none_iff.mp ha p (mem_normalize.mp hp).1
  | some v =>
    by_cases hv : v = JVal.null
    · subst hv
      rw [if_pos rfl]
      rw [lookupR_eq_assoc, assocLookup_eq_none_iff]
      intro p hp hk
      have hmem := mem_normalize.mp hp
      have hl : lookupR r k = some p.2 := by
        apply assocLookup_of_nodup_mem h
        rw [← hk]
        simpa using hmem.1
      rw [ha] at hl
      apply hmem.2
      injection hl with hh
      exact hh.symm
    · rw [if_neg (by simp [hv])]
      have hm : (k, v) ∈ r := assocLookup_eq_some_mem ha
      have hmn : (k, v) ∈ normalize r := mem_normalize.mpr ⟨hm, hv⟩
      exact assocLookup_of_nodup_mem (normalize_nodup h) hmn

theorem getJ_eq_getD_normalize {r : Rec} (h : recNodup r) (k : String) :
    r.getJ k = (lookupR (normalize r) k).getD JVal.null := by
  unfold Rec.getJ
  rw [lookupR_normalize h k]
  cases ha : lookupR r k with
  | none => simp
  | some v => by_cases hv : v = JVal.null <;> simp [hv]

theorem getJ_congr {a b : Rec} (h : componentsEqual a b = true) (ha : recNodup a)
    (hb : recNodup b) (k : String) : a.getJ k = b.getJ k := by
  unfold componentsEqual at h
  rw [getJ_eq_getD_normalize ha, getJ_eq_getD_normalize hb, lookupR_congr h k]

theorem componentsEqual_refl {c : Rec} (h : recNodup c) : componentsEqual c c = true :=
  recEqb_refl (normalize_nodup h)

/-! ## Lemmas: matching dictionaries -/

theorem containsKey_iff {d : PyDict} {k : JVal} :
    containsKey d k = true ↔ k ∈ keysOf d := by
  simp [containsKey]

theorem keysOf_map_update (d : PyDict) (k : JVal) (v : Rec) :
    keysOf (d.map (fun p => if p.1 = k then (k, v) else p)) = keysOf d := by
  induction d with
  | nil => rfl
  | cons p t ih =>
    simp only [keysOf, List.map_cons] at ih ⊢
    by_cases h : p.1 = k
    · rw [if_pos h]
      simp [h, ih]
    · rw [if_neg h]
      simp [ih]

theorem keysOf_pyInsert (d : PyDict) (k : JVal) (v : Rec) :
    keysOf (pyInsert d k v) =
      if containsKey d k then keysOf d else keysOf d ++ [k] := by
  unfold pyInsert
  by_cases h : containsKey d k
  · rw [if_pos h, if_pos h, keysOf_map_update]
  · rw [if_neg h, if_neg h]
    simp [keysOf]

theorem nodup_keys_pyInsert {d : PyDict} {k : JVal} {v : Rec}
    (h : (keysOf d).Nodup) : (keysOf (pyInsert d k v)).Nodup := by
  rw [keysOf_pyInsert]
  by_cases hc : containsKey d k
  · rw [if_pos hc]; exact h
  · rw [if_neg hc]
    have hk : k ∉ keysOf d := by
      intro hmem
      exact hc (containsKey_iff.mpr hmem)
    refine h.append (List.nodup_singleton k) ?_
    intro x hx hy
    rw [List.mem_singleton] at hy
    subst hy
    exact hk hx

theorem nodup_keys_buildDict (keyOf : Rec → Nat → JVal) (ms : List Rec) :
    (keysOf (buildDict keyOf ms)).Nodup := by
  unfold buildDict
  suffices h : ∀ d : PyDict, (keysOf d).Nodup →
      (keysOf (ms.foldl (fun d m => pyInsert d (keyOf m d.length) m) d)).Nodup by
    exact h [] (by simp [keysOf])
  induction ms with
  | nil => intro d hd; simpa using hd
  | cons m t ih =>
    intro d hd
    rw [List.foldl_cons]
    exact ih _ (nodup_keys_pyInsert hd)

theorem mem_pyInsert {d : PyDict} {k : JVal} {v : Rec} {p : JVal × Rec}
    (h : p ∈ pyInsert d k v) : p ∈ d ∨ p = (k, v) := by
  unfold pyInsert at h
  by_cases hc : containsKey d k
  · rw [if_pos hc] at h
    rcases List.mem_map.mp h with ⟨q, hq, he⟩
    by_cases hk : q.1 = k
    · rw [if_pos hk] at he
      right; exact he.symm
    · rw [if_neg hk] at he
      left; rw [← he]; exact hq
  · rw [if_neg hc] at h
    rcases List.mem_append.mp h with hl | hr
    · left; exact hl
    · right; simpa using hr

theorem mem_keysOf_pyInsert {d : PyDict} {k x : JVal} {v : Rec} :
    x ∈ keysOf (pyInsert d k v) ↔ x ∈ keysOf d ∨ x = k := by
  rw [keysOf_pyInsert]
  by_cases hc : containsKey d k
  · rw [if_pos hc]
    constructor
    · exact Or.inl
    · rintro (hx | rfl)
      · exact hx
      · exact containsKey_iff.mp hc
  · rw [if_neg hc]
    simp

theorem entry_buildDict_net (l : List Rec) :
    ∀ p ∈ buildDict netKey l, p.1 = p.2.getJ "mac_address" := by
  unfold buildDict
  suffices h : ∀ d : PyDict, (∀ q ∈ d, q.1 = q.2.getJ "mac_address") →
      ∀ p ∈ l.foldl (fun d m => pyInsert d (netKey m d.length) m) d,
        p.1 = p.2.getJ "mac_address" by
    exact h [] (by intro q hq; simp at hq)
  induction l with
  | nil => intro d hd; simpa using hd
  | cons m t ih =>
    intro d hd
    rw [List.foldl_cons]
    apply ih
    intro q hq
    rcases mem_pyInsert hq with hin | rfl
    · exact hd q hin
    · rfl

theorem mem_keys_buildDict_net (l : List Rec) (x : JVal) :
    x ∈ keysOf (buildDict netKey l) ↔ ∃ m ∈ l, m.getJ "mac_address" = x := by
  unfold buildDict
  suffices h : ∀ d : PyDict,
      (x ∈ keysOf (l.foldl (fun d m => pyInsert d (netKey m d.length) m) d) ↔
        x ∈ keysOf d ∨ ∃ m ∈ l, m.getJ "mac_address" = x) by
    rw [h []]
    simp [keysOf]
  induction l with
  | nil => intro d; simp
  | cons m t ih =>
    intro d
    rw [List.foldl_cons, ih]
    rw [mem_keysOf_pyInsert]
    unfold netKey
    constructor
    · rintro ((hx | hx) | ⟨m', hm', he⟩)
      · exact Or.inl hx
      · exact Or.inr ⟨m, List.mem_cons_self m t, hx.symm⟩
      · exact Or.inr ⟨m', List.mem_cons_of_mem m hm', he⟩
    · rintro (hx | ⟨m', hm', he⟩)
      · exact Or.inl (Or.inl hx)
      · rcases List.mem_cons.mp hm' with rfl | ht
        · exact Or.inl (Or.inr he.symm)
        · exact Or.inr ⟨m', ht, he⟩

theorem hasMacless_iff (l : List Rec) :
    hasMacless l = true ↔ JVal.null ∈ keysOf (buildDict netKey l) := by
  rw [mem_keys_buildDict_net]
  unfold hasMacless isMacless
  rw [List.any_eq_true]
  constructor
  · rintro ⟨m, hm, he⟩
    exact ⟨m, hm, by simpa using he⟩
  · rintro ⟨m, hm, he⟩
    exact ⟨m, hm, by simpa using he⟩

/-! ## Lemmas: counting events produced by the comparator loops -/

theorem countP_filterMap_ite_none {α β : Type} (c : α → Bool) (f : α → β)
    (Q : β → Bool) : ∀ l : List α,
      (l.filterMap (fun a => if c a then none else some (f a))).countP Q =
        l.countP (fun a => !c a && Q (f a)) := by
  intro l
  induction l with
  | nil => rfl
  | cons a t ih =>
    rw [List.filterMap_cons]
    by_cases h : c a
    · simp [h, ih, List.countP_cons]
    · simp [h, List.countP_cons, ih]

theorem countP_filterMap_ite_some {α β : Type} (c : α → Bool) (f : α → β)
    (Q : β → Bool) : ∀ l : List α,
      (l.filterMap (fun a => if c a then some (f a) else none)).countP Q =
        l.countP (fun a => c a && Q (f a)) := by
  intro l
  induction l with
  | nil => rfl
  | cons a t ih =>
    rw [List.filterMap_cons]
    by_cases h : c a
    · simp [h, List.countP_cons, ih]
    · simp [h, ih, List.countP_cons]

theorem length_filterMap_ite_none {α β : Type} (c : α → Bool) (f : α → β) :
    ∀ l : List α,
      (l.filterMap (fun a => if c a then none else some (f a))).length =
        l.countP (fun a => !c a) := by
  intro l
  induction l with
  | nil => rfl
  | cons a t ih =>
    rw [List.filterMap_cons]
    by_cases h : c a
    · simp [h, ih, List.countP_cons]
    · simp [h, List.countP_cons, ih]

theorem mem_filterMap_ite_none {α β : Type} {c : α → Bool} {f : α → β}
    {l : List α} {b : β}
    (h : b ∈ l.filterMap (fun a => if c a then none else some (f a))) :
    ∃ a ∈ l, c a = false ∧ b = f a := by
  rcases List.mem_filterMap.mp h with ⟨a, ha, he⟩
  by_cases hc : c a
  · rw [if_pos hc] at he; simp at he
  · rw [if_neg hc] at he
    exact ⟨a, ha, by simpa using hc, by injection he with hh; exact hh.symm⟩

theorem mem_filterMap_ite_some {α β : Type} {c : α → Bool} {f : α → β}
    {l : List α} {b : β}
    (h : b ∈ l.filterMap (fun a => if c a then some (f a) else none)) :
    ∃ a ∈ l, c a = true ∧ b = f a := by
  rcases List.mem_filterMap.mp h with ⟨a, ha, he⟩
  by_cases hc : c a
  · rw [if_pos hc] at he
    exact ⟨a, ha, hc, by injection he with hh; exact hh.symm⟩
  · rw [if_neg hc] at he; simp at he

theorem countP_congr_mem {α : Type} {l : List α} {p q : α → Bool}
    (h : ∀ a ∈ l, p a = q a) : l.countP p = l.countP q := by
  induction l with
  | nil => rfl
  | cons a t ih =>
    rw [List.countP_cons, List.countP_cons, h a (List.mem_cons_self a t),
      ih (fun x hx => h x (List.mem_cons_of_mem a hx))]

theorem countP_const_false {α : Type} (l : List α) :
    l.countP (fun _ => false) = 0 := by
  induction l with
  | nil => rfl
  | cons a t ih => rw [List.countP_cons]; simp [ih]

theorem countP_eq_of_nodup {α : Type} [DecidableEq α] {l : List α}
    (h : l.Nodup) (a : α) :
    l.countP (fun b => decide (b = a)) = if a ∈ l then 1 else 0 := by
  induction l with
  | nil => simp
  | cons x t ih =>
    rw [List.nodup_cons] at h
    rw [List.countP_cons, ih h.2]
    by_cases hx : x = a
    · subst hx
      simp [h.1]
    · simp [hx, Ne.symm hx]

theorem length_pyInsert (d : PyDict) (k : JVal) (v : Rec) :
    (pyInsert d k v).length =
      if containsKey d k then d.length else d.length + 1 := by
  unfold pyInsert
  by_cases h : containsKey d k
  · rw [if_pos h, if_pos h, List.length_map]
  · rw [if_neg h, if_neg h, List.length_append]
    rfl

theorem buildDict_length_le (keyOf : Rec → Nat → JVal) (ms : List Rec) :
    (buildDict keyOf ms).length ≤ ms.length := by
  unfold buildDict
  suffices h : ∀ d : PyDict,
      (ms.foldl (fun d m => pyInsert d (keyOf m d.length) m) d).length ≤
        d.length + ms.length by
    simpa using h []
  induction ms with
  | nil => intro d; simp
  | cons m t ih =>
    intro d
    rw [List.foldl_cons]
    have h1 := ih (pyInsert d (keyOf m d.length) m)
    have h2 : (pyInsert d (keyOf m d.length) m).length ≤ d.length + 1 := by
      rw [length_pyInsert]
      split <;> omega
    simp only [List.length_cons]
    omega

theorem buildDict_append_single (keyOf : Rec → Nat → JVal) (ms : List Rec)
    (m : Rec) :
    buildDict keyOf (ms ++ [m]) =
      pyInsert (buildDict keyOf ms) (keyOf m (buildDict keyOf ms).length) m := by
  unfold buildDict
  rw [List.foldl_append]
  rfl

theorem ramKey_fallback {m : Rec} (h1 : (m.getJ "serial_number").truthy = false)
    (h2 : (m.getJ "slot").truthy = false) (n : Nat) :
    ramKey m n = JVal.str ("slot_" ++ toString n) := by
  unfold ramKey pyOr
  simp [h1, h2]

theorem storageKey_fallback {m : Rec}
    (h1 : (m.getJ "serial_number").truthy = false) (n : Nat) :
    storageKey m n = JVal.str ("device_" ++ toString n) := by
  unfold storageKey pyOr
  simp [h1]

theorem compareComponent_cases (name : String) (b c : DBConfig) :
    compareComponent name b c = [] ∨
      ∃ e, compareComponent name b c = [e] ∧
        (e.event_type = "removed" ∨ e.event_type = "added" ∨
          e.event_type = "replaced") := by
  simp only [compareComponent]
  split
  · right; exact ⟨_, rfl, Or.inl rfl⟩
  · split
    · right; exact ⟨_, rfl, Or.inr (Or.inl rfl)⟩
    · split
      · split
        · right; exact ⟨_, rfl, Or.inr (Or.inr rfl)⟩
        · left; rfl
      · left; rfl

theorem netDict_macless_count (bs cs : List Rec) :
    (buildDict netKey bs).countP
        (fun p => !containsKey (buildDict netKey cs) p.1 && isMacless p.2) =
      if hasMacless bs && !hasMacless cs then 1 else 0 := by
  have hcong : ∀ p ∈ buildDict netKey bs,
      (!containsKey (buildDict netKey cs) p.1 && isMacless p.2) =
      (!containsKey (buildDict netKey cs) p.1 && decide (p.1 = JVal.null)) := by
    intro p hp
    have hk := entry_buildDict_net bs p hp
    unfold isMacless
    rw [← hk]
  rw [countP_congr_mem hcong]
  by_cases hb : hasMacless bs = true
  · by_cases hc : hasMacless cs = true
    · have hcd : containsKey (buildDict netKey cs) JVal.null = true :=
        containsKey_iff.mpr ((hasMacless_iff cs).mp hc)
      have hz : ∀ p ∈ buildDict netKey bs,
          (!containsKey (buildDict netKey cs) p.1 && decide (p.1 = JVal.null)) =
          (fun (_ : JVal × Rec) => false) p := by
        intro p _
        by_cases hn : p.1 = JVal.null
        · rw [hn, hcd]; rfl
        · simp [hn]
      rw [countP_congr_mem hz, countP_const_false]
      simp [hb, hc]
    · have hcs : hasMacless cs = false := by
        cases hcc : hasMacless cs
        · rfl
        · exact absurd hcc hc
      have hcd : containsKey (buildDict netKey cs) JVal.null = false := by
        cases hcc : containsKey (buildDict netKey cs) JVal.null
        · rfl
        · exact absurd ((hasMacless_iff cs).mpr (containsKey_iff.mp hcc)) hc
      have hnull : JVal.null ∈ keysOf (buildDict netKey bs) :=
        (hasMacless_iff bs).mp hb
      have hz : ∀ p ∈ buildDict netKey bs,
          (!containsKey (buildDict netKey cs) p.1 && decide (p.1 = JVal.null)) =
          decide (p.1 = JVal.null) := by
        intro p _
        by_cases hn : p.1 = JVal.null
        · rw [hn, hcd]; simp
        · simp [hn]
      rw [countP_congr_mem hz]
      have hmap : (buildDict netKey bs).countP (fun p => decide (p.1 = JVal.null)) =
          (keysOf (buildDict netKey bs)).countP (fun k => decide (k = JVal.null)) := by
        unfold keysOf
        rw [List.countP_map]
        rfl
      rw [hmap, countP_eq_of_nodup (nodup_keys_buildDict _ _) _, if_pos hnull]
      simp [hb, hcs]
  · have hbs : hasMacless bs = false := by
      cases hbb : hasMacless bs
      · rfl
      · exact absurd hbb hb
    have hz : ∀ p ∈ buildDict netKey bs,
        (!containsKey (buildDict netKey cs) p.1 && decide (p.1 = JVal.null)) =
        (fun (_ : JVal × Rec) => false) p := by
      intro p hp
      by_cases hn : p.1 = JVal.null
      · exfalso
        apply hb
        apply (hasMacless_iff bs).mpr
        rw [← hn]
        exact containsKey_iff.mp (containsKey_iff.mpr
          (List.mem_map.mpr ⟨p, hp, rfl⟩))
      · simp [hn]
    rw [countP_congr_mem hz, countP_const_false]
    simp [hbs]

/-- C5: each single-instance component comparison yields at most one event,
always of type removed, added or replaced; for RAM and storage the comparator
emits exactly one removed event per baseline-only key, one added event per
current-only key and one replaced event per shared key with unequal normalized
records; network adapters never yield replaced events. -/
theorem claim_C5_thm :
    (∀ name b c, (compareComponent name b c).length ≤ 1 ∧
        ∀ e ∈ compareComponent name b c,
          e.event_type = "removed" ∨ e.event_type = "added" ∨
            e.event_type = "replaced") ∧
    (∀ b c : DBConfig,
      ((compareRamModules b c).countP (fun e => decide (e.event_type = "removed")) =
        (buildDict ramKey (b.ram_modules.getD [])).countP
          (fun p => !containsKey (buildDict ramKey (c.ram_modules.getD [])) p.1)) ∧
      ((compareRamModules b c).countP (fun e => decide (e.event_type = "added")) =
        (buildDict ramKey (c.ram_modules.getD [])).countP
          (fun p => !containsKey (buildDict ramKey (b.ram_modules.getD [])) p.1)) ∧
      ((compareRamModules b c).countP (fun e => decide (e.event_type = "replaced")) =
        (buildDict ramKey (b.ram_modules.getD [])).countP
          (fun p => containsKey (buildDict ramKey (c.ram_modules.getD [])) p.1 &&
            !componentsEqual p.2
              ((lookupD (buildDict ramKey (c.ram_modules.getD [])) p.1).getD [])))) ∧
    (∀ b c : DBConfig,
      ((compareStorageDevices b c).countP (fun e => decide (e.event_type = "removed")) =
        (buildDict storageKey (b.storage_devices.getD [])).countP
          (fun p => !containsKey (buildDict storageKey (c.storage_devices.getD [])) p.1)) ∧
      ((compareStorageDevices b c).countP (fun e => decide (e.event_type = "added")) =
        (buildDict storageKey (c.storage_devices.getD [])).countP
          (fun p => !containsKey (buildDict storageKey (b.storage_devices.getD [])) p.1)) ∧
      ((compareStorageDevices b c).countP (fun e => decide (e.event_type = "replaced")) =
        (buildDict storageKey (b.storage_devices.getD [])).countP
          (fun p => containsKey (buildDict storageKey (c.storage_devices.getD [])) p.1 &&
            !componentsEqual p.2
              ((lookupD (buildDict storageKey (c.storage_devices.getD [])) p.1).getD [])))) ∧
    (∀ b c : DBConfig,
      ((compareNetworkAdapters b c).countP (fun e => decide (e.event_type = "removed")) =
        (buildDict netKey (b.network_adapters.getD [])).countP
          (fun p => !containsKey (buildDict netKey (c.network_adapters.getD [])) p.1)) ∧
      ((compareNetworkAdapters b c).countP (fun e => decide (e.event_type = "added")) =
        (buildDict netKey (c.network_adapters.getD [])).countP
          (fun p => !containsKey (buildDict netKey (b.network_adapters.getD [])) p.1)) ∧
      (∀ e ∈ compareNetworkAdapters b c, e.event_type ≠ "replaced")) := by
  refine ⟨?_, ?_, ?_, ?_⟩
  · intro name b c
    rcases compareComponent_cases name b c with h | ⟨e, he, ht⟩
    · rw [h]
      exact ⟨by simp, by simp⟩
    · rw [he]
      refine ⟨by simp, ?_⟩
      intro x hx
      rw [List.mem_singleton] at hx
      subst hx
      exact ht
  · intro b c
    simp only [compareRamModules]
    refine ⟨?_, ?_, ?_⟩ <;>
    · rw [List.countP_append, List.countP_append, countP_filterMap_ite_none,
        countP_filterMap_ite_none, countP_filterMap_ite_some]
      simp [ramRemovedEvent, ramAddedEvent, ramReplacedEvent, countP_const_false]
  · intro b c
    simp only [compareStorageDevices]
    refine ⟨?_, ?_, ?_⟩ <;>
    · rw [List.countP_append, List.countP_append, countP_filterMap_ite_none,
        countP_filterMap_ite_none, countP_filterMap_ite_some]
      simp [storageRemovedEvent, storageAddedEvent, storageReplacedEvent,
        countP_const_false]
  · intro b c
    refine ⟨?_, ?_, ?_⟩
    · simp only [compareNetworkAdapters]
      rw [List.countP_append, countP_filterMap_ite_none, countP_filterMap_ite_none]
      simp [netRemovedEvent, netAddedEvent, countP_const_false]
    · simp only [compareNetworkAdapters]
      rw [List.countP_append, countP_filterMap_ite_none, countP_filterMap_ite_none]
      simp [netRemovedEvent, netAddedEvent, countP_const_false]
    · intro e he
      simp only [compareNetworkAdapters] at he
      rcases List.mem_append.mp he with h | h
      · obtain ⟨p, hp, hc, rfl⟩ := mem_filterMap_ite_none h
        simp [netRemovedEvent]
      · obtain ⟨p, hp, hc, rfl⟩ := mem_filterMap_ite_none h
        simp [netAddedEvent]

/-- C2 counterexample: in the list with two modules sharing serial S followed
by an unkeyed module, the unkeyed module at list position 2 receives fallback
key slot_1 (the dictionary size), not slot_2 as the claim asserts. -/
theorem claim_C2_counterexample :
    buildDict ramKey
        [[("serial_number", JVal.str "S")], [("serial_number", JVal.str "S")],
          ([] : Rec)] =
      [(JVal.str "S", [("serial_number", JVal.str "S")]),
        (JVal.str "slot_1", ([] : Rec))] ∧
    JVal.str "slot_2" ∉ keysOf (buildDict ramKey
        [[("serial_number", JVal.str "S")], [("serial_number", JVal.str "S")],
          ([] : Rec)]) := by
  refine ⟨by decide, by decide⟩

/-- C2 amended: an unkeyed RAM or storage instance receives the positional
fallback key slot_n or device_n where n is the size of the matching dictionary
built from the instances before it (the number of distinct keys seen so far,
never more than its list position); n equals the 0-based list position exactly
when the preceding instances produced pairwise distinct keys. -/
theorem claim_C2_amended_thm :
    (∀ (ms : List Rec) (m : Rec),
        (m.getJ "serial_number").truthy = false → (m.getJ "slot").truthy = false →
        buildDict ramKey (ms ++ [m]) =
          pyInsert (buildDict ramKey ms)
            (JVal.str ("slot_" ++ toString (buildDict ramKey ms).length)) m) ∧
    (∀ (ms : List Rec) (m : Rec),
        (m.getJ "serial_number").truthy = false → (m.getJ "slot").truthy = false →
        (buildDict ramKey ms).length = ms.length →
        buildDict ramKey (ms ++ [m]) =
          pyInsert (buildDict ramKey ms) (JVal.str ("slot_" ++ toString ms.length)) m) ∧
    (∀ (ms : List Rec) (m : Rec),
        (m.getJ "serial_number").truthy = false →
        buildDict storageKey (ms ++ [m]) =
          pyInsert (buildDict storageKey ms)
            (JVal.str ("device_" ++ toString (buildDict storageKey ms).length)) m) ∧
    (∀ (ms : List Rec) (m : Rec),
        (m.getJ "serial_number").truthy = false →
        (buildDict storageKey ms).length = ms.length →
        buildDict storageKey (ms ++ [m]) =
          pyInsert (buildDict storageKey ms)
            (JVal.str ("device_" ++ toString ms.length)) m) ∧
    (∀ (keyOf : Rec → Nat → JVal) (ms : List Rec),
        (buildDict keyOf ms).length ≤ ms.length) := by
  refine ⟨?_, ?_, ?_, ?_, buildDict_length_le⟩
  · intro ms m h1 h2
    rw [buildDict_append_single, ramKey_fallback h1 h2]
  · intro ms m h1 h2 hlen
    rw [buildDict_append_single, ramKey_fallback h1 h2, hlen]
  · intro ms m h1
    rw [buildDict_append_single, storageKey_fallback h1]
  · intro ms m h1 hlen
    rw [buildDict_append_single, storageKey_fallback h1, hlen]

/-- C2 witness: with one keyed module before it, an unkeyed module at position
1 receives fallback key slot_1. -/
theorem claim_C2_witness :
    buildDict ramKey ([[("serial_number", JVal.str "A")]] ++ [([] : Rec)]) =
      pyInsert (buildDict ramKey [[("serial_number", JVal.str "A")]])
        (JVal.str ("slot_" ++
          toString (List.length ([[("serial_number", JVal.str "A")]] : List Rec))))
        ([] : Rec) :=
  claim_C2_amended_thm.2.1 _ _ (by decide) (by decide) (by decide)

/-- C3 counterexample: a baseline adapter without a MAC address does give rise
to a network ChangeEvent (a removed event) when the current snapshot reports
no MAC-less adapter, contradicting the claim that such adapters are invisible
to network diffing. -/
theorem claim_C3_counterexample :
    compareNetworkAdapters exC3Baseline exC3Current =
      [{ pc_id := "pc1", component_type := "network", event_type := "removed",
         old_value := some [("name", JVal.str "eth0")], new_value := none,
         details := "Сетевой адаптер удален: eth0 (None)" }] ∧
    isMacless [("name", JVal.str "eth0")] = true := by
  refine ⟨by decide, by decide⟩

/-- C3 amended: all MAC-less adapters of one snapshot collapse onto the single
dictionary key None, so a comparison emits exactly one removed event carrying a
MAC-less adapter when only the baseline has MAC-less adapters, exactly one
added event when only the current snapshot has them, and none otherwise; and
network comparison never emits replaced events. -/
theorem claim_C3_amended_thm :
    ∀ b c : DBConfig,
      ((compareNetworkAdapters b c).countP
          (fun e => decide (e.event_type = "removed") && maclessOld e) =
        if hasMacless (b.network_adapters.getD []) &&
            !hasMacless (c.network_adapters.getD []) then 1 else 0) ∧
      ((compareNetworkAdapters b c).countP
          (fun e => decide (e.event_type = "added") && maclessNew e) =
        if hasMacless (c.network_adapters.getD []) &&
            !hasMacless (b.network_adapters.getD []) then 1 else 0) ∧
      (∀ e ∈ compareNetworkAdapters b c, e.event_type ≠ "replaced") := by
  intro b c
  refine ⟨?_, ?_, ?_⟩
  · simp only [compareNetworkAdapters]
    rw [List.countP_append, countP_filterMap_ite_none, countP_filterMap_ite_none]
    simp only [netRemovedEvent, netAddedEvent, maclessOld]
    simp [countP_const_false]
    simpa using netDict_macless_count (b.network_adapters.getD [])
      (c.network_adapters.getD [])
  · simp only [compareNetworkAdapters]
    rw [List.countP_append, countP_filterMap_ite_none, countP_filterMap_ite_none]
    simp only [netRemovedEvent, netAddedEvent, maclessNew]
    simp [countP_const_false]
    simpa using netDict_macless_count (c.network_adapters.getD [])
      (b.network_adapters.getD [])
  · intro e he
    simp only [compareNetworkAdapters] at he
    rcases List.mem_append.mp he with h | h
    · obtain ⟨p, hp, hc, rfl⟩ := mem_filterMap_ite_none h
      simp [netRemovedEvent]
    · obtain ⟨p, hp, hc, rfl⟩ := mem_filterMap_ite_none h
      simp [netAddedEvent]

/-! ## Lemmas: normalized-equal snapshots diff to nothing (C6) -/

theorem dictRel_keysOf {d1 d2 : PyDict} (h : DictRel d1 d2) :
    keysOf d1 = keysOf d2 := by
  induction h with
  | nil => rfl
  | cons hpq _ ih =>
    unfold keysOf at ih ⊢
    rw [List.map_cons, List.map_cons, hpq.1, ih]

theorem forall₂_map_update {d1 d2 : PyDict} (h : DictRel d1 d2) (k : JVal)
    {m1 m2 : Rec} (hm : PairRel m1 m2) :
    DictRel (d1.map (fun p => if p.1 = k then (k, m1) else p))
      (d2.map (fun p => if p.1 = k then (k, m2) else p)) := by
  induction h with
  | nil => exact List.Forall₂.nil
  | @cons a b t1 t2 hab ht ih =>
    simp only [List.map_cons]
    refine List.Forall₂.cons ?_ ih
    by_cases hk : a.1 = k
    · rw [if_pos hk, if_pos (hab.1 ▸ hk)]
      exact ⟨rfl, hm⟩
    · rw [if_neg hk, if_neg (by rw [← hab.1]; exact hk)]
      exact hab

theorem dictRel_pyInsert {d1 d2 : PyDict} {m1 m2 : Rec} (h : DictRel d1 d2)
    (hm : PairRel m1 m2) (k : JVal) :
    DictRel (pyInsert d1 k m1) (pyInsert d2 k m2) := by
  have hck : containsKey d1 k = containsKey d2 k := by
    unfold containsKey
    rw [dictRel_keysOf h]
  by_cases hc : containsKey d2 k = true
  · rw [pyInsert, pyInsert, if_pos (by rw [hck]; exact hc), if_pos hc]
    exact forall₂_map_update h k hm
  · rw [pyInsert, pyInsert, if_neg (by rw [hck]; exact hc), if_neg hc]
    exact List.rel_append h (List.Forall₂.cons ⟨rfl, hm⟩ List.Forall₂.nil)

theorem pairRel_getJ {m1 m2 : Rec} (h : PairRel m1 m2) (k : String) :
    m1.getJ k = m2.getJ k :=
  getJ_congr h.1 h.2.1 h.2.2 k

theorem ramKey_congr : KeyCongr ramKey := by
  intro m1 m2 n h
  unfold ramKey
  rw [pairRel_getJ h "serial_number", pairRel_getJ h "slot"]

theorem storageKey_congr : KeyCongr storageKey := by
  intro m1 m2 n h
  unfold storageKey
  rw [pairRel_getJ h "serial_number"]

theorem netKey_congr : KeyCongr netKey := by
  intro m1 m2 n h
  unfold netKey
  rw [pairRel_getJ h "mac_address"]

theorem dictRel_buildDict {keyOf : Rec → Nat → JVal} (hk : KeyCongr keyOf)
    {ls1 ls2 : List Rec} (h : List.Forall₂ PairRel ls1 ls2) :
    DictRel (buildDict keyOf ls1) (buildDict keyOf ls2) := by
  unfold buildDict
  suffices hs : ∀ d1 d2, DictRel d1 d2 →
      DictRel (ls1.foldl (fun d m => pyInsert d (keyOf m d.length) m) d1)
        (ls2.foldl (fun d m => pyInsert d (keyOf m d.length) m) d2) by
    exact hs [] [] List.Forall₂.nil
  induction h with
  | nil => intro d1 d2 hd; exact hd
  | @cons m1 m2 t1 t2 hm ht ih =>
    intro d1 d2 hd
    rw [List.foldl_cons, List.foldl_cons]
    apply ih
    have hlen : d1.length = d2.length := List.Forall₂.length_eq hd
    have hkey : keyOf m1 d1.length = keyOf m2 d2.length := by
      rw [hlen]
      exact hk m1 m2 d2.length hm
    rw [hkey]
    exact dictRel_pyInsert hd hm _

theorem dictRel_mem {d1 d2 : PyDict} (h : DictRel d1 d2) {p : JVal × Rec}
    (hp : p ∈ d1) : ∃ q ∈ d2, p.1 = q.1 ∧ PairRel p.2 q.2 := by
  induction h with
  | nil => simp at hp
  | @cons a b t1 t2 hab ht ih =>
    rcases List.mem_cons.mp hp with rfl | hmem
    · exact ⟨b, List.mem_cons_self b t2, hab⟩
    · rcases ih hmem with ⟨q, hq, hr⟩
      exact ⟨q, List.mem_cons_of_mem b hq, hr⟩

theorem groups_empty_of_dictRel {d1 d2 : PyDict} (h : DictRel d1 d2)
    (hnod2 : (keysOf d2).Nodup) :
    (∀ p ∈ d1, containsKey d2 p.1 = true) ∧
    (∀ p ∈ d2, containsKey d1 p.1 = true) ∧
    (∀ p ∈ d1,
      (containsKey d2 p.1 && !componentsEqual p.2 ((lookupD d2 p.1).getD [])) =
        false) := by
  have hkeys := dictRel_keysOf h
  refine ⟨?_, ?_, ?_⟩
  · intro p hp
    apply containsKey_iff.mpr
    rw [← hkeys]
    exact List.mem_map.mpr ⟨p, hp, rfl⟩
  · intro p hp
    apply containsKey_iff.mpr
    rw [hkeys]
    exact List.mem_map.mpr ⟨p, hp, rfl⟩
  · intro p hp
    rcases dictRel_mem h hp with ⟨q, hq, hk, hr⟩
    have hl : lookupD d2 p.1 = some q.2 := by
      rw [lookupD_eq_assoc, hk]
      exact assocLookup_of_nodup_mem hnod2 (by simpa using hq)
    rw [hl]
    simp [hr.1]

theorem compareRamModules_eq_nil {b c : DBConfig}
    (h : List.Forall₂ PairRel (b.ram_modules.getD []) (c.ram_modules.getD [])) :
    compareRamModules b c = [] := by
  simp only [compareRamModules]
  have hd := dictRel_buildDict ramKey_congr h
  obtain ⟨h1, h2, h3⟩ := groups_empty_of_dictRel hd (nodup_keys_buildDict _ _)
  have e1 : (buildDict ramKey (b.ram_modules.getD [])).filterMap
      (fun p => if containsKey (buildDict ramKey (c.ram_modules.getD [])) p.1
        then none else some (ramRemovedEvent b.pc_id p.2)) = [] := by
    rw [List.filterMap_eq_nil_iff]
    intro p hp
    rw [if_pos (h1 p hp)]
  have e2 : (buildDict ramKey (c.ram_modules.getD [])).filterMap
      (fun p => if containsKey (buildDict ramKey (b.ram_modules.getD [])) p.1
        then none else some (ramAddedEvent b.pc_id p.2)) = [] := by
    rw [List.filterMap_eq_nil_iff]
    intro p hp
    rw [if_pos (h2 p hp)]
  have e3 : (buildDict ramKey (b.ram_modules.getD [])).filterMap
      (fun p => if containsKey (buildDict ramKey (c.ram_modules.getD [])) p.1 &&
          !componentsEqual p.2
            ((lookupD (buildDict ramKey (c.ram_modules.getD [])) p.1).getD [])
        then some (ramReplacedEvent b.pc_id p.2
          ((lookupD (buildDict ramKey (c.ram_modules.getD [])) p.1).getD []))
        else none) = [] := by
    rw [List.filterMap_eq_nil_iff]
    intro p hp
    simp [h3 p hp]
  rw [e1, e2, e3]
  rfl

theorem compareStorageDevices_eq_nil {b c : DBConfig}
    (h : List.Forall₂ PairRel (b.storage_devices.getD [])
      (c.storage_devices.getD [])) :
    compareStorageDevices b c = [] := by
  simp only [compareStorageDevices]
  have hd := dictRel_buildDict storageKey_congr h
  obtain ⟨h1, h2, h3⟩ := groups_empty_of_dictRel hd (nodup_keys_buildDict _ _)
  have e1 : (buildDict storageKey (b.storage_devices.getD [])).filterMap
      (fun p => if containsKey (buildDict storageKey (c.storage_devices.getD [])) p.1
        then none else some (storageRemovedEvent b.pc_id p.2)) = [] := by
    rw [List.filterMap_eq_nil_iff]
    intro p hp
    rw [if_pos (h1 p hp)]
  have e2 : (buildDict storageKey (c.storage_devices.getD [])).filterMap
      (fun p => if containsKey (buildDict storageKey (b.storage_devices.getD [])) p.1
        then none else some (storageAddedEvent b.pc_id p.2)) = [] := by
    rw [List.filterMap_eq_nil_iff]
    intro p hp
    rw [if_pos (h2 p hp)]
  have e3 : (buildDict storageKey (b.storage_devices.getD [])).filterMap
      (fun p => if containsKey (buildDict storageKey (c.storage_devices.getD [])) p.1 &&
          !componentsEqual p.2
            ((lookupD (buildDict storageKey (c.storage_devices.getD [])) p.1).getD [])
        then some (storageReplacedEvent b.pc_id p.2
          ((lookupD (buildDict storageKey (c.storage_devices.getD [])) p.1).getD []))
        else none) = [] := by
    rw [List.filterMap_eq_nil_iff]
    intro p hp
    simp [h3 p hp]
  rw [e1, e2, e3]
  rfl

theorem compareNetworkAdapters_eq_nil {b c : DBConfig}
    (h : List.Forall₂ PairRel (b.network_adapters.getD [])
      (c.network_adapters.getD [])) :
    compareNetworkAdapters b c = [] := by
  simp only [compareNetworkAdapters]
  have hd := dictRel_buildDict netKey_congr h
  obtain ⟨h1, h2, _⟩ := groups_empty_of_dictRel hd (nodup_keys_buildDict _ _)
  have e1 : (buildDict netKey (b.network_adapters.getD [])).filterMap
      (fun p => if containsKey (buildDict netKey (c.network_adapters.getD [])) p.1
        then none else some (netRemovedEvent b.pc_id p.1 p.2)) = [] := by
    rw [List.filterMap_eq_nil_iff]
    intro p hp
    rw [if_pos (h1 p hp)]
  have e2 : (buildDict netKey (c.network_adapters.getD [])).filterMap
      (fun p => if containsKey (buildDict netKey (b.network_adapters.getD [])) p.1
        then none else some (netAddedEvent b.pc_id p.1 p.2)) = [] := by
    rw [List.filterMap_eq_nil_iff]
    intro p hp
    rw [if_pos (h2 p hp)]
  rw [e1, e2]
  rfl

theorem getComponentSingle_motherboard (c : DBConfig) :
    getComponentSingle c "motherboard" = c.motherboard := by
  simp [getComponentSingle]

theorem getComponentSingle_cpu (c : DBConfig) :
    getComponentSingle c "cpu" = c.cpu := by
  simp [getComponentSingle]

theorem getComponentSingle_gpu (c : DBConfig) :
    getComponentSingle c "gpu" = c.gpu := by
  simp [getComponentSingle]

theorem getComponentSingle_psu (c : DBConfig) :
    getComponentSingle c "psu" = c.psu := by
  simp [getComponentSingle]

theorem compareComponent_eq_nil {name : String} {b c : DBConfig}
    (hwb : slotWFB (getComponentSingle b name) = true)
    (hwc : slotWFB (getComponentSingle c name) = true)
    (h : specNormEqSlot (getComponentSingle b name)
      (getComponentSingle c name) = true) :
    compareComponent name b c = [] := by
  simp only [compareComponent]
  cases hb : getComponentSingle b name with
  | none =>
    cases hc : getComponentSingle c name with
    | none => simp [hb, hc, truthyRec]
    | some r2 =>
      rw [hb, hc] at h
      simp [specNormEqSlot] at h
  | some r1 =>
    cases hc : getComponentSingle c name with
    | none =>
      rw [hb, hc] at h
      simp [specNormEqSlot] at h
    | some r2 =>
      rw [hb] at hwb
      rw [hc] at hwc
      rw [hb, hc] at h
      simp only [slotWFB, Bool.and_eq_true, decide_eq_true_eq] at hwb hwc
      have ht1 : truthyRec (some r1) = true := by
        simp [truthyRec, hwb.2]
      have ht2 : truthyRec (some r2) = true := by
        simp [truthyRec, hwc.2]
      have hce : componentsEqual r1 r2 = true := h
      simp [ht1, ht2, hce]

theorem mem_zip_same {α : Type} :
    ∀ {l : List α} {p : α × α}, p ∈ l.zip l → p.1 = p.2 ∧ p.1 ∈ l := by
  intro l
  induction l with
  | nil => intro p hp; simp at hp
  | cons a t ih =>
    intro p hp
    rw [List.zip_cons_cons] at hp
    rcases List.mem_cons.mp hp with rfl | hmem
    · exact ⟨rfl, List.mem_cons_self _ _⟩
    · rcases ih hmem with ⟨h1, h2⟩
      exact ⟨h1, List.mem_cons_of_mem _ h2⟩

theorem listWFB_mem {o : Option (List Rec)} (h : listWFB o = true) :
    ∀ r ∈ o.getD [], recNodup r := by
  cases o with
  | none => simp
  | some l =>
    simp only [listWFB, List.all_eq_true, decide_eq_true_eq] at h
    simpa using h

theorem forall₂_pairRel_of_spec {o1 o2 : Option (List Rec)}
    (h1 : listWFB o1 = true) (h2 : listWFB o2 = true)
    (h : specNormEqList o1 o2 = true) :
    List.Forall₂ PairRel (o1.getD []) (o2.getD []) := by
  have hl1 := listWFB_mem h1
  have hl2 := listWFB_mem h2
  simp only [specNormEqList, Bool.and_eq_true, decide_eq_true_eq,
    List.all_eq_true] at h
  obtain ⟨hlen, hzip⟩ := h
  suffices haux : ∀ (l1 l2 : List Rec), l1.length = l2.length →
      (∀ p ∈ l1.zip l2, componentsEqual p.1 p.2 = true) →
      (∀ r ∈ l1, recNodup r) → (∀ r ∈ l2, recNodup r) →
      List.Forall₂ PairRel l1 l2 by
    exact haux _ _ hlen hzip hl1 hl2
  intro l1
  induction l1 with
  | nil =>
    intro l2 hlen _ _ _
    cases l2 with
    | nil => exact List.Forall₂.nil
    | cons b t2 => simp at hlen
  | cons a t ih =>
    intro l2 hlen hz hn1 hn2
    cases l2 with
    | nil => simp at hlen
    | cons b t2 =>
      refine List.Forall₂.cons ⟨?_, ?_, ?_⟩ ?_
      · exact hz (a, b) (by rw [List.zip_cons_cons]; exact List.mem_cons_self _ _)
      · exact hn1 a (List.mem_cons_self _ _)
      · exact hn2 b (List.mem_cons_self _ _)
      · apply ih
        · simpa using hlen
        · intro p hp
          exact hz p (by rw [List.zip_cons_cons]; exact List.mem_cons_of_mem _ hp)
        · intro r hr
          exact hn1 r (List.mem_cons_of_mem _ hr)
        · intro r hr
          exact hn2 r (List.mem_cons_of_mem _ hr)

theorem specNormEqSlot_refl {o : Option Rec} (h : slotWFB o = true) :
    specNormEqSlot o o = true := by
  cases o with
  | none => rfl
  | some r =>
    simp only [slotWFB, Bool.and_eq_true, decide_eq_true_eq] at h
    exact recEqb_refl (normalize_nodup h.1)

theorem specNormEqList_refl {o : Option (List Rec)} (h : listWFB o = true) :
    specNormEqList o o = true := by
  have hl := listWFB_mem h
  simp only [specNormEqList, Bool.and_eq_true, decide_eq_true_eq,
    List.all_eq_true]
  refine ⟨by simp, ?_⟩
  intro p hp
  obtain ⟨he, hm⟩ := mem_zip_same hp
  rw [← he]
  exact componentsEqual_refl (hl p.1 hm)

theorem specNormEqConfig_refl {s : DBConfig} (h : configWFB s = true) :
    specNormEqConfig s s = true := by
  simp only [configWFB, Bool.and_eq_true] at h
  obtain ⟨⟨⟨⟨⟨⟨hm, hc⟩, hg⟩, hp⟩, hr⟩, hs⟩, hn⟩ := h
  simp only [specNormEqConfig, Bool.and_eq_true]
  exact ⟨⟨⟨⟨⟨⟨specNormEqSlot_refl hm, specNormEqSlot_refl hc⟩,
    specNormEqSlot_refl hg⟩, specNormEqSlot_refl hp⟩,
    specNormEqList_refl hr⟩, specNormEqList_refl hs⟩, specNormEqList_refl hn⟩

/-- C6: equality of components is normalized mapping equality, and two
well-formed snapshots whose component slots are pairwise equal after
normalization diff to the empty event sequence; in particular every well-formed
snapshot diffs to nothing against itself. -/
theorem claim_C6_thm :
    (∀ b c : DBConfig, configWFB b = true → configWFB c = true →
        specNormEqConfig b c = true → compareConfigurations b c = []) ∧
    (∀ s : DBConfig, configWFB s = true → compareConfigurations s s = []) := by
  have hmain : ∀ b c : DBConfig, configWFB b = true → configWFB c = true →
      specNormEqConfig b c = true → compareConfigurations b c = [] := by
    intro b c hb hc h
    simp only [configWFB, Bool.and_eq_true] at hb hc
    obtain ⟨⟨⟨⟨⟨⟨hbm, hbc⟩, hbg⟩, hbp⟩, hbr⟩, hbs⟩, hbn⟩ := hb
    obtain ⟨⟨⟨⟨⟨⟨hcm, hcc⟩, hcg⟩, hcp⟩, hcr⟩, hcs⟩, hcn⟩ := hc
    simp only [specNormEqConfig, Bool.and_eq_true] at h
    obtain ⟨⟨⟨⟨⟨⟨em, ec⟩, eg⟩, ep⟩, er⟩, es⟩, en⟩ := h
    unfold compareConfigurations
    rw [compareComponent_eq_nil
        (by rw [getComponentSingle_motherboard]; exact hbm)
        (by rw [getComponentSingle_motherboard]; exact hcm)
        (by rw [getComponentSingle_motherboard, getComponentSingle_motherboard]
            exact em),
      compareComponent_eq_nil
        (by rw [getComponentSingle_cpu]; exact hbc)
        (by rw [getComponentSingle_cpu]; exact hcc)
        (by rw [getComponentSingle_cpu, getComponentSingle_cpu]; exact ec),
      compareComponent_eq_nil
        (by rw [getComponentSingle_gpu]; exact hbg)
        (by rw [getComponentSingle_gpu]; exact hcg)
        (by rw [getComponentSingle_gpu, getComponentSingle_gpu]; exact eg),
      compareComponent_eq_nil
        (by rw [getComponentSingle_psu]; exact hbp)
        (by rw [getComponentSingle_psu]; exact hcp)
        (by rw [getComponentSingle_psu, getComponentSingle_psu]; exact ep),
      compareRamModules_eq_nil (forall₂_pairRel_of_spec hbr hcr er),
      compareStorageDevices_eq_nil (forall₂_pairRel_of_spec hbs hcs es),
      compareNetworkAdapters_eq_nil (forall₂_pairRel_of_spec hbn hcn en)]
    rfl
  exact ⟨hmain, fun s hs => hmain s s hs hs (specNormEqConfig_refl hs)⟩

/-- C6 witness: two concrete snapshots that differ syntactically (a dropped
null attribute, permuted record entries) but are equal after normalization
diff to nothing, and a concrete snapshot self-diffs to nothing. -/
theorem claim_C6_witness :
    compareConfigurations exC6B exC6C = [] ∧
    compareConfigurations exC6S exC6S = [] :=
  ⟨claim_C6_thm.1 exC6B exC6C (by decide) (by decide) (by decide),
   claim_C6_thm.2 exC6S (by decide)⟩

/-! ## Lemmas: the ingestion pipeline branches -/

theorem processRun_new {db : DB} {config : Snapshot}
    (hf : db.pcs.find? (fun p => decide (p.pc_id = config.pc_id)) = none) :
    processConfigurationRun db config =
      ({ db with
          pcs := db.pcs ++ [{ pc_id := config.pc_id, hostname := config.hostname, last_seen := none, status := "normal" }]
          configs := db.configs ++
            [createDbConfiguration (freshConfigId db) config.pc_id config true] },
       [Action.commit]) := by
  unfold processConfigurationRun
  rw [hf]

theorem processRun_noBaseline {db : DB} {config : Snapshot} {pc0 : PCRow}
    (hf : db.pcs.find? (fun p => decide (p.pc_id = config.pc_id)) = some pc0)
    (hb : db.configs.find?
      (fun c => decide (c.pc_id = pc0.pc_id) && c.is_baseline) = none) :
    processConfigurationRun db config =
      ({ db with
          pcs := replacePC db.pcs
            { pc0 with last_seen := some config.timestamp, status := "normal" }
          configs := db.configs ++
            [createDbConfiguration (freshConfigId db) pc0.pc_id config true] },
       [Action.commit]) := by
  simp only [processConfigurationRun, hf, hb]

theorem processRun_clean {db : DB} {config : Snapshot} {pc0 : PCRow}
    {baseline : DBConfig}
    (hf : db.pcs.find? (fun p => decide (p.pc_id = config.pc_id)) = some pc0)
    (hb : db.configs.find?
      (fun c => decide (c.pc_id = pc0.pc_id) && c.is_baseline) = some baseline)
    (he : compareConfigurations baseline
      (createDbConfiguration (freshConfigId db) pc0.pc_id config false) = []) :
    processConfigurationRun db config =
      ({ db with
          pcs := replacePC db.pcs
            { pc0 with last_seen := some config.timestamp, status := "normal" }
          configs := db.configs ++
            [createDbConfiguration (freshConfigId db) pc0.pc_id config false] },
       [Action.commit]) := by
  simp only [processConfigurationRun, hf, hb]
  rw [if_pos he]

theorem processRun_changed {db : DB} {config : Snapshot} {pc0 : PCRow}
    {baseline : DBConfig}
    (hf : db.pcs.find? (fun p => decide (p.pc_id = config.pc_id)) = some pc0)
    (hb : db.configs.find?
      (fun c => decide (c.pc_id = pc0.pc_id) && c.is_baseline) = some baseline)
    (he : compareConfigurations baseline
      (createDbConfiguration (freshConfigId db) pc0.pc_id config false) ≠ []) :
    processConfigurationRun db config =
      ({ db with
          pcs := replacePC db.pcs
            { pc0 with last_seen := some config.timestamp, status := "changed" }
          configs := db.configs ++
            [createDbConfiguration (freshConfigId db) pc0.pc_id config false]
          events := db.events ++ (compareConfigurations baseline
            (createDbConfiguration (freshConfigId db) pc0.pc_id config false)).map
              (toEventRow pc0.pc_id) },
       (compareConfigurations baseline
          (createDbConfiguration (freshConfigId db) pc0.pc_id config false)).foldr
         (fun e acc => Action.addEvent (toEventRow pc0.pc_id e) ::
           Action.sendAlert pc0.pc_id e :: acc)
         [Action.commit]) := by
  simp only [processConfigurationRun, hf, hb]
  rw [if_neg he]

theorem alertTrace_countP (pcId : String) (events : List ChangeEvent) :
    (events.foldr (fun e acc => Action.addEvent (toEventRow pcId e) ::
        Action.sendAlert pcId e :: acc) [Action.commit]).countP isSendAlert =
      events.length := by
  induction events with
  | nil => rfl
  | cons e t ih =>
    rw [List.foldr_cons, List.countP_cons, List.countP_cons, ih]
    simp [isSendAlert]

theorem alertTrace_split (pcId : String) (events : List ChangeEvent) :
    ∃ pre, (events.foldr (fun e acc => Action.addEvent (toEventRow pcId e) ::
        Action.sendAlert pcId e :: acc) [Action.commit]) =
          pre ++ [Action.commit] ∧ Action.commit ∉ pre := by
  induction events with
  | nil => exact ⟨[], rfl, by simp⟩
  | cons e t ih =>
    rcases ih with ⟨pre, hpre, hni⟩
    refine ⟨Action.addEvent (toEventRow pcId e) :: Action.sendAlert pcId e :: pre,
      ?_, ?_⟩
    · rw [List.foldr_cons, hpre]
      rfl
    · intro hmem
      simp only [List.mem_cons] at hmem
      rcases hmem with h | h | h
      · exact Action.noConfusion h
      · exact Action.noConfusion h
      · exact hni h

/-- C1 counterexample: on a concrete store and payload producing one change
event, the trace of _process_configuration contains a send_alert invocation
strictly before the commit, and the persisted event row has notified = false —
against the claim that notification happens only after commit and that the
notified flag is then set. -/
theorem claim_C1_counterexample :
    ((processTrace exC1Db exC1Cfg).takeWhile
        (fun a => !decide (a = Action.commit))).countP isSendAlert = 1 ∧
    (processResult exC1Db exC1Cfg).events.countP (fun e => e.notified) = 0 ∧
    (processResult exC1Db exC1Cfg).events.length = 1 := by
  refine ⟨by decide, by decide, by decide⟩

/-- C1 amended: send_alert is invoked exactly once per persisted ChangeEvent,
but inside the ingestion transaction, before the commit (the commit is the last
action of the trace); and the dispatcher never sets the notified flag — every
event row it persists keeps notified = false. -/
theorem claim_C1_amended_thm :
    ∀ (db : DB) (config : Snapshot),
      ((processResult db config).events.length =
        db.events.length + (processTrace db config).countP isSendAlert) ∧
      (∃ pre, processTrace db config = pre ++ [Action.commit] ∧
        Action.commit ∉ pre) ∧
      (∀ e ∈ (processResult db config).events,
        e ∈ db.events ∨ e.notified = false) := by
  intro db config
  cases hf : db.pcs.find? (fun p => decide (p.pc_id = config.pc_id)) with
  | none =>
    rw [processResult, processTrace, processRun_new hf]
    refine ⟨by simp [isSendAlert], ⟨[], rfl, by simp⟩, ?_⟩
    intro e he
    exact Or.inl he
  | some pc0 =>
    cases hb : db.configs.find?
        (fun c => decide (c.pc_id = pc0.pc_id) && c.is_baseline) with
    | none =>
      rw [processResult, processTrace, processRun_noBaseline hf hb]
      refine ⟨by simp [isSendAlert], ⟨[], rfl, by simp⟩, ?_⟩
      intro e he
      exact Or.inl he
    | some baseline =>
      by_cases he : compareConfigurations baseline
          (createDbConfiguration (freshConfigId db) pc0.pc_id config false) = []
      · rw [processResult, processTrace, processRun_clean hf hb he]
        refine ⟨by simp [isSendAlert], ⟨[], rfl, by simp⟩, ?_⟩
        intro e hmem
        exact Or.inl hmem
      · rw [processResult, processTrace, processRun_changed hf hb he]
        refine ⟨?_, alertTrace_split _ _, ?_⟩
        · rw [alertTrace_countP]
          simp
        · intro e hmem
          simp only [List.mem_append] at hmem
          rcases hmem with h | h
          · exact Or.inl h
          · rcases List.mem_map.mp h with ⟨x, _, hx⟩
            right
            rw [← hx]
            rfl

/-- C9: a failed processing run leaves the store untouched while a successful
one commits the full result; on the diff path the committed store extends the
events table by exactly the diff events and the configurations by exactly the
new snapshot; and the consumer loop over a batch is compositional — an error
in one message never prevents processing of the following messages. -/
theorem claim_C9_thm :
    (∀ (db : DB) (config : Snapshot), processOutcome db config false = db) ∧
    (∀ (db : DB) (config : Snapshot) (ok : Bool),
      processOutcome db config ok = db ∨
        processOutcome db config ok = processResult db config) ∧
    (∀ (db : DB) (config : Snapshot) (pc0 : PCRow) (baseline : DBConfig),
      db.pcs.find? (fun p => decide (p.pc_id = config.pc_id)) = some pc0 →
      db.configs.find?
        (fun c => decide (c.pc_id = pc0.pc_id) && c.is_baseline) = some baseline →
      (processResult db config).events = db.events ++
        (compareConfigurations baseline
          (createDbConfiguration (freshConfigId db) pc0.pc_id config false)).map
          (toEventRow pc0.pc_id) ∧
      (processResult db config).configs = db.configs ++
        [createDbConfiguration (freshConfigId db) pc0.pc_id config false]) ∧
    (∀ (db : DB) (xs ys : List (Snapshot × Bool)),
      runMessages db (xs ++ ys) = runMessages (runMessages db xs) ys) := by
  refine ⟨?_, ?_, ?_, ?_⟩
  · intro db config
    rfl
  · intro db config ok
    cases ok
    · exact Or.inl rfl
    · exact Or.inr rfl
  · intro db config pc0 baseline hf hb
    by_cases he : compareConfigurations baseline
        (createDbConfiguration (freshConfigId db) pc0.pc_id config false) = []
    · rw [processResult, processRun_clean hf hb he]
      refine ⟨?_, rfl⟩
      rw [he]
      simp
    · rw [processResult, processRun_changed hf hb he]
      exact ⟨rfl, rfl⟩
  · intro db xs ys
    unfold runMessages
    rw [List.foldl_append]

/-- C9 witness: one concrete processing run on a machine with a baseline
extends the events and configurations tables exactly as stated. -/
theorem claim_C9_witness :
    (processResult exC9Db exC9Cfg).events = exC9Db.events ++
      (compareConfigurations
        { emptyConfigRow 0 "pc1" true 0 with gpu := some [("model", JVal.str "gtx")] }
        (createDbConfiguration (freshConfigId exC9Db) "pc1" exC9Cfg false)).map
        (toEventRow "pc1") ∧
    (processResult exC9Db exC9Cfg).configs = exC9Db.configs ++
      [createDbConfiguration (freshConfigId exC9Db) "pc1" exC9Cfg false] :=
  claim_C9_thm.2.2.1 exC9Db exC9Cfg
    { pc_id := "pc1", hostname := "h", last_seen := some 0, status := "normal" }
    { emptyConfigRow 0 "pc1" true 0 with gpu := some [("model", JVal.str "gtx")] }
    (by decide) (by decide)

/-! ## Lemmas: status rows, offline sweep, baseline promotion -/

theorem mem_replacePC {pcs : List PCRow} {pc2 : PCRow} {p : PCRow}
    (hp : p ∈ replacePC pcs pc2) (hid : p.pc_id = pc2.pc_id) : p = pc2 := by
  unfold replacePC at hp
  rcases List.mem_map.mp hp with ⟨q, hq, he⟩
  by_cases hk : q.pc_id = pc2.pc_id
  · rw [if_pos hk] at he
    exact he.symm
  · rw [if_neg hk] at he
    rw [← he] at hid
    exact absurd hid hk

theorem offlineRow_offline {now : Int} {pc : PCRow} {t : Int}
    (hls : pc.last_seen = some t) (hlt : t < now - 10)
    (hst : pc.status ≠ "offline") :
    offlineRow now 10 pc = { pc with status := "offline" } := by
  simp only [offlineRow, hls]
  rw [if_pos ⟨hlt, hst⟩]

theorem offlineRow_none {now threshold : Int} {pc : PCRow}
    (hls : pc.last_seen = none) : offlineRow now threshold pc = pc := by
  unfold offlineRow
  rw [hls]

/-- C7: the status state machine of ingestion and the lazy offline sweep: a
never-seen machine_id is registered with status normal and its snapshot stored
as baseline; an existing machine with a baseline goes to normal on an empty
diff and to changed (persisting the events) on a non-empty one; an existing
machine without a baseline gets the snapshot stored as a new baseline and goes
to normal; and the read-side sweep sends every machine with a known last_seen
older than the 10-minute threshold and a status other than offline to offline. -/
theorem claim_C7_thm :
    (∀ (db : DB) (config : Snapshot),
      db.pcs.find? (fun p => decide (p.pc_id = config.pc_id)) = none →
      (processResult db config).pcs = db.pcs ++
        [{ pc_id := config.pc_id, hostname := config.hostname, last_seen := none, status := "normal" }] ∧
      (processResult db config).configs = db.configs ++
        [createDbConfiguration (freshConfigId db) config.pc_id config true] ∧
      (createDbConfiguration (freshConfigId db) config.pc_id config true).is_baseline = true) ∧
    (∀ (db : DB) (config : Snapshot) (pc0 : PCRow) (baseline : DBConfig),
      db.pcs.find? (fun p => decide (p.pc_id = config.pc_id)) = some pc0 →
      db.configs.find?
        (fun c => decide (c.pc_id = pc0.pc_id) && c.is_baseline) = some baseline →
      compareConfigurations baseline
        (createDbConfiguration (freshConfigId db) pc0.pc_id config false) = [] →
      ∀ p ∈ (processResult db config).pcs, p.pc_id = config.pc_id →
        p.status = "normal") ∧
    (∀ (db : DB) (config : Snapshot) (pc0 : PCRow) (baseline : DBConfig),
      db.pcs.find? (fun p => decide (p.pc_id = config.pc_id)) = some pc0 →
      db.configs.find?
        (fun c => decide (c.pc_id = pc0.pc_id) && c.is_baseline) = some baseline →
      compareConfigurations baseline
        (createDbConfiguration (freshConfigId db) pc0.pc_id config false) ≠ [] →
      (∀ p ∈ (processResult db config).pcs, p.pc_id = config.pc_id →
        p.status = "changed") ∧
      (processResult db config).events = db.events ++
        (compareConfigurations baseline
          (createDbConfiguration (freshConfigId db) pc0.pc_id config false)).map
          (toEventRow pc0.pc_id)) ∧
    (∀ (db : DB) (config : Snapshot) (pc0 : PCRow),
      db.pcs.find? (fun p => decide (p.pc_id = config.pc_id)) = some pc0 →
      db.configs.find?
        (fun c => decide (c.pc_id = pc0.pc_id) && c.is_baseline) = none →
      (processResult db config).configs = db.configs ++
        [createDbConfiguration (freshConfigId db) pc0.pc_id config true] ∧
      (createDbConfiguration (freshConfigId db) pc0.pc_id config true).is_baseline = true ∧
      (∀ p ∈ (processResult db config).pcs, p.pc_id = config.pc_id →
        p.status = "normal")) ∧
    (∀ (db : DB) (now : Int) (pc : PCRow) (t : Int),
      pc ∈ db.pcs → pc.last_seen = some t → t < now - 10 →
      pc.status ≠ "offline" →
      { pc with status := "offline" } ∈ (updateOfflineStatus db now 10).pcs) := by
  refine ⟨?_, ?_, ?_, ?_, ?_⟩
  · intro db config hf
    rw [processResult, processRun_new hf]
    exact ⟨rfl, rfl, rfl⟩
  · intro db config pc0 baseline hf hb he p hp hid
    rw [processResult, processRun_clean hf hb he] at hp
    have hid0 : pc0.pc_id = config.pc_id := by
      simpa using List.find?_some hf
    have hp2 : p = { pc0 with last_seen := some config.timestamp, status := "normal" } :=
      mem_replacePC hp (by rw [hid, ← hid0])
    rw [hp2]
  · intro db config pc0 baseline hf hb he
    constructor
    · intro p hp hid
      rw [processResult, processRun_changed hf hb he] at hp
      have hid0 : pc0.pc_id = config.pc_id := by
        simpa using List.find?_some hf
      have hp2 : p = { pc0 with last_seen := some config.timestamp, status := "changed" } :=
        mem_replacePC hp (by rw [hid, ← hid0])
      rw [hp2]
    · rw [processResult, processRun_changed hf hb he]
  · intro db config pc0 hf hb
    refine ⟨?_, rfl, ?_⟩
    · rw [processResult, processRun_noBaseline hf hb]
    · intro p hp hid
      rw [processResult, processRun_noBaseline hf hb] at hp
      have hid0 : pc0.pc_id = config.pc_id := by
        simpa using List.find?_some hf
      have hp2 : p = { pc0 with last_seen := some config.timestamp, status := "normal" } :=
        mem_replacePC hp (by rw [hid, ← hid0])
      rw [hp2]
  · intro db now pc t hmem hls hlt hst
    unfold updateOfflineStatus
    exact List.mem_map.mpr ⟨pc, hmem, offlineRow_offline hls hlt hst⟩

/-- C7 witness: registering a fresh machine_id appends a normal machine row,
and a stale normal machine goes offline on the read-side sweep. -/
theorem claim_C7_witness :
    (processResult exC7Db exC7Cfg).pcs = exC7Db.pcs ++
      [{ pc_id := "new", hostname := "n", last_seen := none, status := "normal" }] ∧
    ({ pc_id := "old", hostname := "o", last_seen := some 0, status := "offline" } : PCRow) ∈
      (updateOfflineStatus exC7Db 20 10).pcs :=
  ⟨(claim_C7_thm.1 exC7Db exC7Cfg (by decide)).1,
   claim_C7_thm.2.2.2.2 exC7Db 20
     { pc_id := "old", hostname := "o", last_seen := some 0, status := "normal" } 0
     (by decide) (by decide) (by decide) (by decide)⟩

/-- C10: a brand-new machine is registered with last_seen null (it stays null
until a second snapshot arrives), the offline sweep leaves every row with null
last_seen untouched, and hence the freshly registered machine survives any
later sweep with status normal. -/
theorem claim_C10_thm :
    ∀ (db : DB) (config : Snapshot) (now threshold : Int),
      db.pcs.find? (fun p => decide (p.pc_id = config.pc_id)) = none →
      ((processResult db config).pcs = db.pcs ++
        [{ pc_id := config.pc_id, hostname := config.hostname, last_seen := none, status := "normal" }]) ∧
      (∀ pc : PCRow, pc.last_seen = none → offlineRow now threshold pc = pc) ∧
      ((updateOfflineStatus (processResult db config) now threshold).pcs =
        db.pcs.map (offlineRow now threshold) ++
          [{ pc_id := config.pc_id, hostname := config.hostname, last_seen := none, status := "normal" }]) := by
  intro db config now threshold hf
  refine ⟨?_, fun pc hls => offlineRow_none hls, ?_⟩
  · rw [processResult, processRun_new hf]
  · rw [processResult, processRun_new hf]
    unfold updateOfflineStatus
    rw [List.map_append]
    rfl

/-- C10 witness: the first-ever snapshot registers a machine with null
last_seen and status normal, and an offline sweep far in the future leaves the
row unchanged. -/
theorem claim_C10_witness :
    (processResult exC10Db exC10Cfg).pcs = exC10Db.pcs ++
      [{ pc_id := "pc9", hostname := "h9", last_seen := none, status := "normal" }] ∧
    (updateOfflineStatus (processResult exC10Db exC10Cfg) 100 10).pcs =
      exC10Db.pcs.map (offlineRow 100 10) ++
        [{ pc_id := "pc9", hostname := "h9", last_seen := none, status := "normal" }] := by
  have h := claim_C10_thm exC10Db exC10Cfg 100 10 (by decide)
  exact ⟨h.1, h.2.2⟩

theorem compare_empty_slots {b c : DBConfig}
    (hb1 : b.motherboard = none) (hb2 : b.cpu = none) (hb3 : b.ram_modules = none)
    (hb4 : b.storage_devices = none) (hb5 : b.gpu = none)
    (hb6 : b.network_adapters = none) (hb7 : b.psu = none)
    (hc1 : c.motherboard = none) (hc2 : c.cpu = none) (hc3 : c.ram_modules = none)
    (hc4 : c.storage_devices = none) (hc5 : c.gpu = none)
    (hc6 : c.network_adapters = none) (hc7 : c.psu = none) :
    compareConfigurations b c = [] := by
  unfold compareConfigurations
  rw [compareComponent_eq_nil
      (by rw [getComponentSingle_motherboard, hb1]; rfl)
      (by rw [getComponentSingle_motherboard, hc1]; rfl)
      (by rw [getComponentSingle_motherboard, getComponentSingle_motherboard,
        hb1, hc1]; rfl),
    compareComponent_eq_nil
      (by rw [getComponentSingle_cpu, hb2]; rfl)
      (by rw [getComponentSingle_cpu, hc2]; rfl)
      (by rw [getComponentSingle_cpu, getComponentSingle_cpu, hb2, hc2]; rfl),
    compareComponent_eq_nil
      (by rw [getComponentSingle_gpu, hb5]; rfl)
      (by rw [getComponentSingle_gpu, hc5]; rfl)
      (by rw [getComponentSingle_gpu, getComponentSingle_gpu, hb5, hc5]; rfl),
    compareComponent_eq_nil
      (by rw [getComponentSingle_psu, hb7]; rfl)
      (by rw [getComponentSingle_psu, hc7]; rfl)
      (by rw [getComponentSingle_psu, getComponentSingle_psu, hb7, hc7]; rfl),
    compareRamModules_eq_nil (by rw [hb3, hc3]; exact List.Forall₂.nil),
    compareStorageDevices_eq_nil (by rw [hb4, hc4]; exact List.Forall₂.nil),
    compareNetworkAdapters_eq_nil (by rw [hb6, hc6]; exact List.Forall₂.nil)]
  rfl

theorem createDb_empty_slots {config : Snapshot}
    (h1 : config.motherboard = none) (h2 : config.cpu = none)
    (h3 : config.ram_modules = none) (h4 : config.storage_devices = none)
    (h5 : config.gpu = none) (h6 : config.network_adapters = none)
    (h7 : config.psu = none) (i : Nat) (pcId : String) (isB : Bool) :
    (createDbConfiguration i pcId config isB).motherboard = none ∧
    (createDbConfiguration i pcId config isB).cpu = none ∧
    (createDbConfiguration i pcId config isB).ram_modules = none ∧
    (createDbConfiguration i pcId config isB).storage_devices = none ∧
    (createDbConfiguration i pcId config isB).gpu = none ∧
    (createDbConfiguration i pcId config isB).network_adapters = none ∧
    (createDbConfiguration i pcId config isB).psu = none := by
  unfold createDbConfiguration
  simp [h1, h2, h3, h4, h5, h6, h7, setCompSingle, setCompList]

/-- C4 counterexample: against a machine with an established baseline holding
a cpu record and status normal, a payload with every component field omitted
produces one (removed) ChangeEvent and flips the status to changed — not zero
events with status normal as the claim asserts. -/
theorem claim_C4_counterexample :
    (processResult exC4Db exC4Cfg).events.length = 1 ∧
    (∀ p ∈ (processResult exC4Db exC4Cfg).pcs, p.status = "changed") := by
  refine ⟨by decide, by decide⟩

/-- C4 amended: the all-components-omitted payload yields zero ChangeEvents
and leaves the status at normal exactly when the established baseline itself
has no component stored; then the diff is empty and the machine stays normal. -/
theorem claim_C4_amended_thm :
    ∀ (db : DB) (config : Snapshot) (pc0 : PCRow) (baseline : DBConfig),
      db.pcs.find? (fun p => decide (p.pc_id = config.pc_id)) = some pc0 →
      pc0.status = "normal" →
      db.configs.find?
        (fun c => decide (c.pc_id = pc0.pc_id) && c.is_baseline) = some baseline →
      baseline.motherboard = none → baseline.cpu = none →
      baseline.ram_modules = none → baseline.storage_devices = none →
      baseline.gpu = none → baseline.network_adapters = none →
      baseline.psu = none →
      config.motherboard = none → config.cpu = none →
      config.ram_modules = none → config.storage_devices = none →
      config.gpu = none → config.network_adapters = none → config.psu = none →
      (processResult db config).events = db.events ∧
      (∀ p ∈ (processResult db config).pcs, p.pc_id = config.pc_id →
        p.status = "normal") := by
  intro db config pc0 baseline hf hst hb b1 b2 b3 b4 b5 b6 b7 c1 c2 c3 c4 c5 c6 c7
  have hcur := createDb_empty_slots c1 c2 c3 c4 c5 c6 c7
    (freshConfigId db) pc0.pc_id false
  have he : compareConfigurations baseline
      (createDbConfiguration (freshConfigId db) pc0.pc_id config false) = [] :=
    compare_empty_slots b1 b2 b3 b4 b5 b6 b7 hcur.1 hcur.2.1 hcur.2.2.1
      hcur.2.2.2.1 hcur.2.2.2.2.1 hcur.2.2.2.2.2.1 hcur.2.2.2.2.2.2
  constructor
  · rw [processResult, processRun_clean hf hb he]
  · intro p hp hid
    rw [processResult, processRun_clean hf hb he] at hp
    have hid0 : pc0.pc_id = config.pc_id := by
      simpa using List.find?_some hf
    have hp2 := mem_replacePC hp (by rw [hid, ← hid0])
    rw [hp2]

/-- C4 witness: with an empty baseline and a prior normal status, the
all-omitted payload leaves the events table untouched and the status normal. -/
theorem claim_C4_witness :
    (processResult exC4DbW (emptySnapshot "pc2" "h2" 8)).events = exC4DbW.events ∧
    (∀ p ∈ (processResult exC4DbW (emptySnapshot "pc2" "h2" 8)).pcs,
      p.pc_id = "pc2" → p.status = "normal") :=
  claim_C4_amended_thm exC4DbW (emptySnapshot "pc2" "h2" 8)
    { pc_id := "pc2", hostname := "h2", last_seen := some 0, status := "normal" }
    (emptyConfigRow 0 "pc2" true 0)
    (by decide) rfl (by decide) rfl rfl rfl rfl rfl rfl rfl rfl rfl rfl rfl rfl
    rfl rfl

theorem foldl_pick_mem : ∀ (t : List DBConfig) (b : DBConfig),
    t.foldl (fun best c => if best.timestamp < c.timestamp then c else best) b ∈
      b :: t := by
  intro t
  induction t with
  | nil => intro b; exact List.mem_cons_self _ _
  | cons c t ih =>
    intro b
    rw [List.foldl_cons]
    have h := ih (if b.timestamp < c.timestamp then c else b)
    rcases List.mem_cons.mp h with he | ht
    · rw [he]
      by_cases hbc : b.timestamp < c.timestamp
      · rw [if_pos hbc]
        exact List.mem_cons_of_mem _ (List.mem_cons_self _ _)
      · rw [if_neg hbc]
        exact List.mem_cons_self _ _
    · exact List.mem_cons_of_mem _ (List.mem_cons_of_mem _ ht)

theorem foldl_pick_le : ∀ (t : List DBConfig) (b : DBConfig),
    b.timestamp ≤ (t.foldl
      (fun best c => if best.timestamp < c.timestamp then c else best) b).timestamp ∧
    ∀ c ∈ t, c.timestamp ≤ (t.foldl
      (fun best c => if best.timestamp < c.timestamp then c else best) b).timestamp := by
  intro t
  induction t with
  | nil =>
    intro b
    refine ⟨le_refl _, ?_⟩
    intro c hc
    simp at hc
  | cons c t ih =>
    intro b
    rw [List.foldl_cons]
    obtain ⟨h1, h2⟩ := ih (if b.timestamp < c.timestamp then c else b)
    have hb : b.timestamp ≤ (if b.timestamp < c.timestamp then c else b).timestamp := by
      by_cases hbc : b.timestamp < c.timestamp
      · rw [if_pos hbc]
        exact le_of_lt hbc
      · rw [if_neg hbc]
    have hcle : c.timestamp ≤ (if b.timestamp < c.timestamp then c else b).timestamp := by
      by_cases hbc : b.timestamp < c.timestamp
      · rw [if_pos hbc]
      · rw [if_neg hbc]
        omega
    refine ⟨le_trans hb h1, ?_⟩
    intro x hx
    rcases List.mem_cons.mp hx with rfl | hmem
    · exact le_trans hcle h1
    · exact h2 x hmem

theorem latestAmong_mem {l : List DBConfig} {x : DBConfig}
    (h : latestAmong l = some x) : x ∈ l := by
  cases l with
  | nil => simp [latestAmong] at h
  | cons b t =>
    simp only [latestAmong, Option.some.injEq] at h
    rw [← h]
    exact foldl_pick_mem t b

theorem latestAmong_max {l : List DBConfig} {x : DBConfig}
    (h : latestAmong l = some x) : ∀ c ∈ l, c.timestamp ≤ x.timestamp := by
  cases l with
  | nil => intro c hc; simp at hc
  | cons b t =>
    simp only [latestAmong, Option.some.injEq] at h
    intro c hc
    obtain ⟨h1, h2⟩ := foldl_pick_le t b
    rcases List.mem_cons.mp hc with rfl | hmem
    · rw [← h]
      exact h1
    · rw [← h]
      exact h2 c hmem

/-- C8: the promote-to-baseline endpoint fails with no write when the machine
has no non-baseline snapshot; on success it leaves exactly one baseline row
for the machine, that row is a most-recent non-baseline snapshot, every
previously marked baseline is demoted, and the machine status becomes normal. -/
theorem claim_C8_thm :
    ∀ (db : DB) (pcId : String) (pc : PCRow),
      (db.configs.map (fun c => c.id)).Nodup →
      db.pcs.find? (fun p => decide (p.pc_id = pcId)) = some pc →
      ((db.configs.filter (fun c => decide (c.pc_id = pcId) && !c.is_baseline) = [] →
        setBaseline db pcId = Except.error "No configuration found") ∧
      (∀ db', setBaseline db pcId = Except.ok db' →
        db'.configs.countP (fun c => decide (c.pc_id = pcId) && c.is_baseline) = 1 ∧
        (∃ latest, latestAmong (db.configs.filter
            (fun c => decide (c.pc_id = pcId) && !c.is_baseline)) = some latest ∧
          latest ∈ db.configs ∧ latest.is_baseline = false ∧ latest.pc_id = pcId ∧
          (∀ c ∈ db.configs, c.pc_id = pcId → c.is_baseline = false →
            c.timestamp ≤ latest.timestamp) ∧
          { latest with is_baseline := true } ∈ db'.configs) ∧
        (∀ c ∈ db.configs, c.pc_id = pcId → c.is_baseline = true →
          { c with is_baseline := false } ∈ db'.configs) ∧
        (∀ p ∈ db'.pcs, p.pc_id = pcId → p.status = "normal"))) := by
  intro db pcId pc hids hf
  constructor
  · intro hempty
    simp only [setBaseline, hf, hempty]
    rfl
  · intro db' hok
    simp only [setBaseline, hf] at hok
    cases hl : latestAmong (db.configs.filter
        (fun c => decide (c.pc_id = pcId) && !c.is_baseline)) with
    | none =>
      rw [hl] at hok
      simp at hok
    | some latest =>
      rw [hl] at hok
      simp only [Except.ok.injEq] at hok
      have hlmem : latest ∈ db.configs ∧ latest.pc_id = pcId ∧
          latest.is_baseline = false := by
        have h0 := latestAmong_mem hl
        rw [List.mem_filter] at h0
        obtain ⟨hm, hcond⟩ := h0
        simp only [Bool.and_eq_true, decide_eq_true_eq, Bool.not_eq_true'] at hcond
        exact ⟨hm, hcond.1, hcond.2⟩
      have hinj : ∀ c ∈ db.configs, c.id = latest.id → c = latest :=
        fun c hc hcid => List.inj_on_of_nodup_map hids hc hlmem.1 hcid
      subst hok
      refine ⟨?_, ?_, ?_, ?_⟩
      · show (db.configs.map (fun c =>
          if c.pc_id = pcId ∧ c.is_baseline then { c with is_baseline := false }
          else if c.id = latest.id then { c with is_baseline := true }
          else c)).countP (fun c => decide (c.pc_id = pcId) && c.is_baseline) = 1
        rw [List.countP_map]
        have hpt : ∀ c ∈ db.configs,
            ((fun c => decide (c.pc_id = pcId) && c.is_baseline) ∘ (fun c =>
              if c.pc_id = pcId ∧ c.is_baseline then { c with is_baseline := false }
              else if c.id = latest.id then { c with is_baseline := true }
              else c)) c = decide (c = latest) := by
          intro c hc
          by_cases h1 : c.pc_id = pcId ∧ c.is_baseline = true
          · have hne : c ≠ latest := by
              intro heq
              rw [heq] at h1
              rw [hlmem.2.2] at h1
              exact absurd h1.2 (by simp)
            simp [Function.comp, if_pos h1, hne]
          · by_cases h2 : c.id = latest.id
            · have hceq : c = latest := hinj c hc h2
              subst hceq
              simp [Function.comp, if_neg h1, hlmem.2.1, hlmem.2.2]
            · have hne : c ≠ latest := fun heq => h2 (by rw [heq])
              simp only [Function.comp, if_neg h1, if_neg h2]
              cases hbase : c.is_baseline
              · simp [hbase, hne]
              · have hpcid : ¬ c.pc_id = pcId := fun hp => h1 ⟨hp, hbase⟩
                simp [hpcid, hne]
        rw [countP_congr_mem hpt]
        have hnodup : db.configs.Nodup := List.Nodup.of_map _ hids
        rw [countP_eq_of_nodup hnodup latest, if_pos hlmem.1]
      · refine ⟨latest, rfl, hlmem.1, hlmem.2.2, hlmem.2.1, ?_, ?_⟩
        · intro c hc hcp hcb
          apply latestAmong_max hl
          rw [List.mem_filter]
          refine ⟨hc, ?_⟩
          simp [hcp, hcb]
        · show _ ∈ db.configs.map (fun c =>
            if c.pc_id = pcId ∧ c.is_baseline then { c with is_baseline := false }
            else if c.id = latest.id then { c with is_baseline := true }
            else c)
          apply List.mem_map.mpr
          refine ⟨latest, hlmem.1, ?_⟩
          rw [if_neg (fun h => by
            rw [hlmem.2.2] at h
            exact absurd h.2 (by simp)), if_pos rfl]
      · intro c hc hcp hcb
        show _ ∈ db.configs.map (fun c =>
          if c.pc_id = pcId ∧ c.is_baseline then { c with is_baseline := false }
          else if c.id = latest.id then { c with is_baseline := true }
          else c)
        apply List.mem_map.mpr
        refine ⟨c, hc, ?_⟩
        rw [if_pos ⟨hcp, hcb⟩]
      · intro p hp hid
        have hpcid : pc.pc_id = pcId := by
          simpa using List.find?_some hf
        have hp2 := mem_replacePC hp (by rw [hid, ← hpcid])
        rw [hp2]

/-- C8 witness: on a concrete machine with two stale baselines and two
non-baseline snapshots, promotion succeeds, leaves exactly one baseline and
sets the machine status to normal. -/
theorem claim_C8_witness :
    ∃ db', setBaseline exC8Db "pc1" = Except.ok db' ∧
      db'.configs.countP (fun c => decide (c.pc_id = "pc1") && c.is_baseline) = 1 ∧
      (∀ p ∈ db'.pcs, p.pc_id = "pc1" → p.status = "normal") := by
  cases hok : setBaseline exC8Db "pc1" with
  | error e =>
    exfalso
    have h0 : exceptIsOk (setBaseline exC8Db "pc1") = true := by decide
    rw [hok] at h0
    exact Bool.noConfusion h0
  | ok db' =>
    have h := (claim_C8_thm exC8Db "pc1"
      { pc_id := "pc1", hostname := "h", last_seen := some 0, status := "changed" }
      (by decide) (by decide)).2 db' hok
    exact ⟨db', rfl, h.1, h.2.2.2⟩

end PCGuardian
